import Mathlib

/-!
# Verification of the revenue spreading engine

A shallow embedding of `src/processing/revenue_engine.py` from the
Dashboard_Commercial repository, together with proofs about the
date-resolution rules (Rules 1-3), the three business-unit spreading
algorithms, window clamping (Rule 4), and the per-year / per-quarter
accumulation performed by `calculate_revenue`.

Modelling choices:
* pandas `Timestamp`s are embedded as year/month/day triples of integers
  (`Date`); `NaT` becomes `Option Date` with `none`.
* monetary amounts and probability factors are embedded as exact
  rationals (`ℚ`); the Python constants `0.60` / `0.40` denote the exact
  rationals 3/5 and 2/5 here.
* the output dictionary of `calculate_revenue` (keys `Montant Total Y`,
  `Montant Pondéré Y`, `Montant Total Qq_Y`, `Montant Pondéré Qq_Y` plus
  the four `dates_*` diagnostic keys) is embedded as the structure
  `AllocationResult`, with the financial columns as functions of the
  year (and quarter); keys absent from the dictionary correspond to
  arguments on which the functions are identically zero.
-/

namespace RevenueEngine

/-- A calendar date: the year/month/day of a pandas `Timestamp`. -/
structure Date where
  year : Int
  month : Int
  day : Int
deriving DecidableEq, Repr

/-- Chronological order on dates (pandas `<=`): lexicographic on
(year, month, day). -/
def dateLe (a b : Date) : Prop :=
  a.year < b.year ∨
    (a.year = b.year ∧
      (a.month < b.month ∨ (a.month = b.month ∧ a.day ≤ b.day)))

instance (a b : Date) : Decidable (dateLe a b) := by
  unfold dateLe; infer_instance

/-- Chronological strict order on dates (pandas `<`); dates are totally
ordered, so `a < b` is `¬ b ≤ a`. -/
def dateLt (a b : Date) : Prop := ¬ dateLe b a

instance (a b : Date) : Decidable (dateLt a b) := by
  unfold dateLt; infer_instance

/-- Gregorian leap-year test (as used by pandas timestamps). -/
def isLeapYear (y : Int) : Bool :=
  (y % 4 == 0 && y % 100 != 0) || y % 400 == 0

/-- Number of days of month `m` of year `y`. -/
def daysInMonth (y m : Int) : Int :=
  if m = 2 then (if isLeapYear y then 29 else 28)
  else if m = 4 ∨ m = 6 ∨ m = 9 ∨ m = 11 then 30
  else 31

/-- Linear index of a date's calendar month (`year * 12 + (month - 1)`). -/
def monthIndex (d : Date) : Int := d.year * 12 + (d.month - 1)

/-- The date in calendar month `t` (linear index) whose day-of-month is
`day` clamped into the month's length. -/
def dateOfMonthIndex (t : Int) (day : Int) : Date :=
  ⟨t / 12, t % 12 + 1, min day (daysInMonth (t / 12) (t % 12 + 1))⟩

/-- pandas `Timestamp + DateOffset(months=k)`: shift the calendar month
by `k`, keeping the day-of-month but clamping it to the length of the
target month (`2025-01-31 + 1 month = 2025-02-28`). -/
def addMonths (d : Date) (k : Int) : Date :=
  dateOfMonthIndex (monthIndex d + k) d.day

/-- Source `RevenueAllocation`: a monthly revenue fragment. -/
structure RevenueAllocation where
  year : Int
  month : Int
  amount : ℚ
deriving DecidableEq, Repr

/-- Source `RevenueEngine.get_quarter`: `(month - 1) // 3 + 1`. -/
def getQuarter (month : Int) : Int := (month - 1) / 3 + 1

/-- Month-start dates of `n` consecutive calendar months, the first one
having linear index `a`. -/
def monthRangeAux : Int → Nat → List Date
  | _, 0 => []
  | a, n + 1 => dateOfMonthIndex a 1 :: monthRangeAux (a + 1) n

/-- Source `RevenueEngine._iter_calendar_month_starts`: the month-start dates
covering the inclusive range of calendar months between `start` and
`stop` (day-of-month is deliberately ignored); empty when `stop`'s
month precedes `start`'s month.  The `pd.isna` guard of the source is
handled by the callers here: `calculate_revenue` only reaches the
spreading step with non-`NaT` dates. -/
def iterCalendarMonthStarts (start stop : Date) : List Date :=
  let a := monthIndex start
  let b := monthIndex stop
  if b < a then [] else monthRangeAux a (b - a + 1).toNat

/-- Source `RevenueEngine._spread_maintenance`: even spread over the calendar
months of the project. -/
def spreadMaintenance (amount : ℚ) (start stop : Date) :
    List RevenueAllocation :=
  let months := iterCalendarMonthStarts start stop
  if months = [] then []
  else months.map (fun m => ⟨m.year, m.month, amount / months.length⟩)

/-- Source `RevenueEngine._spread_travaux`: 100% on the start month when start
and stop fall in the same calendar month, else even spread. -/
def spreadTravaux (amount : ℚ) (start stop : Date) :
    List RevenueAllocation :=
  if start.year = stop.year ∧ start.month = stop.month then
    [⟨start.year, start.month, amount⟩]
  else
    let months := iterCalendarMonthStarts start stop
    if months = [] then []
    else months.map (fun m => ⟨m.year, m.month, amount / months.length⟩)

/-- One phase of the CONCEPTION spreading loop: `n` monthly fragments of
`monthly`, starting at `cur` and advancing the cursor one month at a
time; also returns the cursor value after the loop. -/
def conceptionPhase : Date → Nat → ℚ → List RevenueAllocation × Date
  | cur, 0, _ => ([], cur)
  | cur, n + 1, monthly =>
    let rest := conceptionPhase (addMonths cur 1) n monthly
    (⟨cur.year, cur.month, monthly⟩ :: rest.1, rest.2)

/-- Constant from `config/settings.py`: `CONCEPTION_THRESHOLD_LOW = 15000`. -/
def CONCEPTION_THRESHOLD_LOW : ℚ := 15000

/-- Constant from `config/settings.py`: `CONCEPTION_THRESHOLD_HIGH = 30000`. -/
def CONCEPTION_THRESHOLD_HIGH : ℚ := 30000

/-- Source `RevenueEngine._spread_conception`: threshold-based phasing anchored
at the start date only. -/
def spreadConception (amount : ℚ) (start : Date) : List RevenueAllocation :=
  if amount < CONCEPTION_THRESHOLD_LOW then
    (conceptionPhase start 3 (amount / 3)).1
  else if amount ≤ CONCEPTION_THRESHOLD_HIGH then
    let p1 := conceptionPhase start 6 (amount * 0.60 / 6)
    let p2 := conceptionPhase (addMonths p1.2 6) 6 (amount * 0.40 / 6)
    p1.1 ++ p2.1
  else
    let p1 := conceptionPhase start 12 (amount * 0.40 / 12)
    let p2 := conceptionPhase (addMonths p1.2 6) 12 (amount * 0.60 / 12)
    p1.1 ++ p2.1

/-- An input row of the engine (the fields of the pandas `Series` that
`calculate_revenue` reads). -/
structure Row where
  amount : ℚ
  probability_factor : ℚ
  final_bu : String
  projet_start : Option Date
  projet_stop : Option Date
  date : Option Date
deriving DecidableEq, Repr

/-- The 4-tuple returned by `RevenueEngine._compute_effective_dates`. -/
structure ResolvedDates where
  effective_start : Option Date
  effective_stop : Option Date
  rule_applied : Bool
  rule_name : String
deriving DecidableEq, Repr

/-- Rule 1 branch of `_compute_effective_dates` (only start missing,
proposal date present). -/
def rule1 (bu : String) (proposal stop : Date) : ResolvedDates :=
  if bu = "MAINTENANCE" then
    ⟨some (addMonths stop (-11)), some stop, true, "rule1_start_missing_maintenance"⟩
  else if bu = "TRAVAUX" then
    ⟨some proposal, some stop, true, "rule1_start_missing_travaux"⟩
  else if bu = "CONCEPTION" then
    ⟨some proposal, none, true, "rule1_start_missing_conception"⟩
  else
    ⟨some proposal, some stop, true, "rule1_start_missing_default"⟩

/-- Rule 2 branch of `_compute_effective_dates` (only end missing,
proposal date present). -/
def rule2 (bu : String) (start : Date) : ResolvedDates :=
  if bu = "MAINTENANCE" then
    ⟨some start, some (addMonths start 11), true, "rule2_end_missing_maintenance"⟩
  else if bu = "TRAVAUX" then
    ⟨some start, some (addMonths start 5), true, "rule2_end_missing_travaux"⟩
  else if bu = "CONCEPTION" then
    ⟨some start, none, false, "none"⟩
  else
    ⟨some start, some (addMonths start 5), true, "rule2_end_missing_default"⟩

/-- Rule 3 branch of `_compute_effective_dates` (both dates missing,
proposal date present). -/
def rule3 (bu : String) (proposal : Date) : ResolvedDates :=
  if bu = "MAINTENANCE" then
    ⟨some proposal, some (addMonths proposal 11), true, "rule3_both_missing_maintenance"⟩
  else if bu = "TRAVAUX" then
    ⟨some proposal, some (addMonths proposal 5), true, "rule3_both_missing_travaux"⟩
  else if bu = "CONCEPTION" then
    ⟨some proposal, none, true, "rule3_both_missing_conception"⟩
  else
    ⟨some proposal, some (addMonths proposal 5), true, "rule3_both_missing_default"⟩

/-- Source `RevenueEngine._compute_effective_dates`.  Note the source checks
`proposal_date` validity before dispatching on which date is missing:
whenever the row is not in the "both present and consistent" case and
the proposal date is absent, it returns `missing_all_dates` - even in
the only-stop-missing case, whose rules never use the proposal date. -/
def computeEffectiveDates (row : Row) : ResolvedDates :=
  let bu := row.final_bu
  match row.projet_start, row.projet_stop with
  | some s, some e =>
    if dateLe s e then ⟨some s, some e, false, "none"⟩
    else
      -- start > stop: treated as both missing (demoted to Rule 3)
      match row.date with
      | none => ⟨none, none, false, "missing_all_dates"⟩
      | some d => rule3 bu d
  | some s, none =>
    match row.date with
    | none => ⟨none, none, false, "missing_all_dates"⟩
    | some _ => rule2 bu s
  | none, some e =>
    match row.date with
    | none => ⟨none, none, false, "missing_all_dates"⟩
    | some d => rule1 bu d e
  | none, none =>
    match row.date with
    | none => ⟨none, none, false, "missing_all_dates"⟩
    | some d => rule3 bu d

/-- The output of `calculate_revenue` for one row: the financial columns
(`Montant Total Y` = `total Y`, `Montant Pondéré Y` = `weighted Y`,
`Montant Total Qq_Y` = `totalQ q Y`, `Montant Pondéré Qq_Y` =
`weightedQ q Y`) and the four `dates_*` diagnostic columns. -/
structure AllocationResult where
  total : Int → ℚ
  weighted : Int → ℚ
  totalQ : Int → Int → ℚ
  weightedQ : Int → Int → ℚ
  rule_applied : Bool
  rule_name : String
  effective_start : Option Date
  effective_stop : Option Date

/-- The freshly initialized result: every financial column `0.0`,
`dates_rule_applied = False`, `dates_rule = 'none'`, dates `NaT`. -/
def zeroResult : AllocationResult :=
  ⟨fun _ => 0, fun _ => 0, fun _ _ => 0, fun _ _ => 0, false, "none", none, none⟩

/-- Source `RevenueEngine._clamp_allocation_to_window` (Rule 4). -/
def clampAllocationToWindow (alloc : RevenueAllocation)
    (firstYear lastYear : Int) : RevenueAllocation :=
  if alloc.year < firstYear then ⟨firstYear, 1, alloc.amount⟩
  else if lastYear < alloc.year then ⟨lastYear, 12, alloc.amount⟩
  else alloc

/-- The accumulation step of `calculate_revenue`: fold one clamped
allocation into the result, guarded by membership of its year in the
tracked list. -/
def addAllocation (years : List Int) (p : ℚ) (res : AllocationResult)
    (a : RevenueAllocation) : AllocationResult :=
  if a.year ∈ years then
    let q := getQuarter a.month
    { res with
      total := fun y => if y = a.year then res.total y + a.amount else res.total y
      weighted := fun y => if y = a.year then res.weighted y + a.amount * p else res.weighted y
      totalQ := fun qq y =>
        if qq = q ∧ y = a.year then res.totalQ qq y + a.amount else res.totalQ qq y
      weightedQ := fun qq y =>
        if qq = q ∧ y = a.year then res.weightedQ qq y + a.amount * p else res.weightedQ qq y }
  else res

/-- Clamp every allocation to the window, then accumulate all of them
into `base` (the last two loops of `calculate_revenue`). -/
def foldAllocations (years : List Int) (firstYear lastYear : Int) (p : ℚ)
    (base : AllocationResult) (allocs : List RevenueAllocation) :
    AllocationResult :=
  (allocs.map (fun a => clampAllocationToWindow a firstYear lastYear)).foldl
    (addAllocation years p) base

/-- Python `min` of a list (callers guard against the empty list; the
default value for `[]` is never observable in `calculate_revenue`,
because with no tracked years the membership guard of `addAllocation`
rejects every allocation). -/
def listMin : List Int → Int
  | [] => 0
  | x :: xs => xs.foldl min x

/-- Python `max` of a list (same remark as `listMin`). -/
def listMax : List Int → Int
  | [] => 0
  | x :: xs => xs.foldl max x

/-- Source `RevenueEngine.__init__`: the supplied tracked-years list is sorted
ascending at construction time. -/
def mkYearsToTrack (l : List Int) : List Int := List.insertionSort (· ≤ ·) l

/-- The 1-month fallback of `calculate_revenue` for duration-based
business units: when the resolved stop is `NaT` or precedes the
resolved start, the project is treated as a 1-month project
(`effective_stop := effective_start`). -/
def effectiveStopWithFallback (stopOpt : Option Date) (es : Date) : Date :=
  match stopOpt with
  | none => es
  | some st => if dateLt st es then es else st

/-- Whether the 1-month fallback fired (used to append
`"_fallback_1month"` to the diagnostic rule name). -/
def fallbackApplied (stopOpt : Option Date) (es : Date) : Bool :=
  match stopOpt with
  | none => true
  | some st => decide (dateLt st es)

/-- The part of `calculate_revenue` after the zero-amount guard and the
date resolution, as a function of the resolved effective start (the
`if pd.isna(effective_start)` test and everything below it). -/
def allocateResolved (years : List Int) (row : Row) (r : ResolvedDates) :
    Option Date → AllocationResult
  | none =>
    { zeroResult with
      rule_applied := r.rule_applied
      rule_name := r.rule_name
      effective_start := r.effective_start
      effective_stop := r.effective_stop }
  | some es =>
    let p := row.probability_factor
    let base : AllocationResult :=
      { zeroResult with
        rule_applied := r.rule_applied
        rule_name := r.rule_name
        effective_start := r.effective_start
        effective_stop := r.effective_stop }
    let firstYear := listMin years
    let lastYear := listMax years
    if row.final_bu = "CONCEPTION" then
      foldAllocations years firstYear lastYear p base
        (spreadConception row.amount es)
    else
      -- duration-based BUs: 1-month fallback when stop is NaT or < start
      let effStop : Date := effectiveStopWithFallback r.effective_stop es
      let fb : Bool := fallbackApplied r.effective_stop es
      let base2 :=
        if fb && r.rule_applied then
          { base with rule_name := r.rule_name ++ "_fallback_1month" }
        else base
      let allocs :=
        if row.final_bu = "MAINTENANCE" then
          spreadMaintenance row.amount es effStop
        else
          spreadTravaux row.amount es effStop
      foldAllocations years firstYear lastYear p base2 allocs

/-- Source `RevenueEngine.calculate_revenue`, for an engine whose (already
sorted) stored list is `years`. -/
def calculateRevenue (years : List Int) (row : Row) : AllocationResult :=
  if row.amount = 0 then zeroResult
  else
    let r := computeEffectiveDates row
    allocateResolved years row r r.effective_start

/-! ## Basic date lemmas -/

/-- A date has a calendar-valid month field.  Every pandas `Timestamp`
satisfies this; it is the data-type invariant of the embedding. -/
def validMonth (d : Date) : Prop := 1 ≤ d.month ∧ d.month ≤ 12

instance (d : Date) : Decidable (validMonth d) := by
  unfold validMonth; infer_instance

/-- Validity of an optional date (`NaT` is vacuously valid). -/
def validOpt : Option Date → Prop
  | none => True
  | some d => validMonth d

instance (o : Option Date) : Decidable (validOpt o) := by
  cases o
  · exact isTrue trivial
  · unfold validOpt validMonth; infer_instance

/-- All date fields of a row have calendar-valid months. -/
def ValidRow (row : Row) : Prop :=
  validOpt row.projet_start ∧ validOpt row.projet_stop ∧ validOpt row.date

instance (row : Row) : Decidable (ValidRow row) := by
  unfold ValidRow; infer_instance

theorem monthIndex_dateOfMonthIndex (t day : Int) :
    monthIndex (dateOfMonthIndex t day) = t := by
  unfold monthIndex dateOfMonthIndex
  dsimp only
  omega

theorem validMonth_dateOfMonthIndex (t day : Int) :
    validMonth (dateOfMonthIndex t day) := by
  unfold validMonth dateOfMonthIndex
  dsimp only
  omega

theorem monthIndex_addMonths (d : Date) (k : Int) :
    monthIndex (addMonths d k) = monthIndex d + k := by
  unfold addMonths; rw [monthIndex_dateOfMonthIndex]

theorem validMonth_addMonths (d : Date) (k : Int) :
    validMonth (addMonths d k) := validMonth_dateOfMonthIndex _ _

theorem year_of_monthIndex (d : Date) (h : validMonth d) :
    monthIndex d / 12 = d.year := by
  rcases h with ⟨h1, h2⟩; unfold monthIndex; omega

theorem month_of_monthIndex (d : Date) (h : validMonth d) :
    monthIndex d % 12 + 1 = d.month := by
  rcases h with ⟨h1, h2⟩; unfold monthIndex; omega

theorem dateLe_refl (d : Date) : dateLe d d := by
  unfold dateLe; omega

theorem dateLe_of_not_dateLt (a b : Date) (h : ¬ dateLt a b) : dateLe b a := by
  unfold dateLt at h; exact not_not.mp h

theorem monthIndex_le_of_dateLe (a b : Date) (ha : validMonth a)
    (hb : validMonth b) (h : dateLe a b) : monthIndex a ≤ monthIndex b := by
  rcases ha with ⟨ha1, ha2⟩; rcases hb with ⟨hb1, hb2⟩
  unfold dateLe at h; unfold monthIndex
  omega

/-! ## Month-range lemmas -/

theorem monthRangeAux_eq_map (a : Int) (n : Nat) :
    monthRangeAux a n =
      (List.range n).map (fun i : Nat => dateOfMonthIndex (a + (i : Int)) 1) := by
  induction n generalizing a with
  | zero => rfl
  | succ n ih =>
    rw [monthRangeAux, ih, List.range_succ_eq_map, List.map_cons, List.map_map]
    congr 1
    · norm_num
    · refine List.map_congr_left fun i _ => ?_
      simp only [Function.comp_apply]
      congr 1
      push_cast
      ring

theorem length_monthRangeAux (a : Int) (n : Nat) :
    (monthRangeAux a n).length = n := by
  rw [monthRangeAux_eq_map]; simp

theorem validMonth_of_mem_monthRangeAux (a : Int) (n : Nat) (d : Date)
    (hd : d ∈ monthRangeAux a n) : validMonth d := by
  rw [monthRangeAux_eq_map] at hd
  rcases List.mem_map.mp hd with ⟨i, _, rfl⟩
  exact validMonth_dateOfMonthIndex _ _

theorem iterCalendarMonthStarts_eq (start stop : Date)
    (h : monthIndex start ≤ monthIndex stop) :
    iterCalendarMonthStarts start stop =
      monthRangeAux (monthIndex start)
        (monthIndex stop - monthIndex start + 1).toNat := by
  unfold iterCalendarMonthStarts
  simp only [if_neg (not_lt.mpr h)]

theorem length_iterCalendarMonthStarts (start stop : Date)
    (h : monthIndex start ≤ monthIndex stop) :
    ((iterCalendarMonthStarts start stop).length : Int) =
      monthIndex stop - monthIndex start + 1 := by
  rw [iterCalendarMonthStarts_eq start stop h, length_monthRangeAux]
  omega

theorem iterCalendarMonthStarts_ne_nil (start stop : Date)
    (h : monthIndex start ≤ monthIndex stop) :
    iterCalendarMonthStarts start stop ≠ [] := by
  have hl := length_iterCalendarMonthStarts start stop h
  intro hnil
  rw [hnil] at hl
  simp at hl
  omega

/-! ## Python `min` / `max` of a list -/

theorem foldl_min_le_init (xs : List Int) (b : Int) : xs.foldl min b ≤ b := by
  induction xs generalizing b with
  | nil => simp
  | cons y ys ih =>
    simp only [List.foldl_cons]
    exact le_trans (ih (min b y)) (min_le_left b y)

theorem foldl_min_le_mem (xs : List Int) (b x : Int) (hx : x ∈ xs) :
    xs.foldl min b ≤ x := by
  induction xs generalizing b with
  | nil => cases hx
  | cons y ys ih =>
    simp only [List.foldl_cons]
    rcases List.mem_cons.mp hx with rfl | h
    · exact le_trans (foldl_min_le_init ys _) (min_le_right b x)
    · exact ih _ h

theorem foldl_min_mem (xs : List Int) (b : Int) :
    xs.foldl min b = b ∨ xs.foldl min b ∈ xs := by
  induction xs generalizing b with
  | nil => left; rfl
  | cons y ys ih =>
    simp only [List.foldl_cons]
    rcases ih (min b y) with h | h
    · rcases min_cases b y with ⟨h2, _⟩ | ⟨h2, _⟩
      · left; rw [h, h2]
      · right; rw [h, h2]; exact List.mem_cons_self y ys
    · right; exact List.mem_cons_of_mem y h

theorem listMin_le (l : List Int) (x : Int) (hx : x ∈ l) : listMin l ≤ x := by
  cases l with
  | nil => cases hx
  | cons y ys =>
    unfold listMin
    rcases List.mem_cons.mp hx with rfl | h
    · exact foldl_min_le_init ys x
    · exact foldl_min_le_mem ys y x h

theorem listMin_mem (l : List Int) (h : l ≠ []) : listMin l ∈ l := by
  cases l with
  | nil => exact absurd rfl h
  | cons y ys =>
    show List.foldl min y ys ∈ y :: ys
    rcases foldl_min_mem ys y with h2 | h2
    · rw [h2]; exact List.mem_cons_self y ys
    · exact List.mem_cons_of_mem y h2

theorem init_le_foldl_max (xs : List Int) (b : Int) : b ≤ xs.foldl max b := by
  induction xs generalizing b with
  | nil => simp
  | cons y ys ih =>
    simp only [List.foldl_cons]
    exact le_trans (le_max_left b y) (ih (max b y))

theorem mem_le_foldl_max (xs : List Int) (b x : Int) (hx : x ∈ xs) :
    x ≤ xs.foldl max b := by
  induction xs generalizing b with
  | nil => cases hx
  | cons y ys ih =>
    simp only [List.foldl_cons]
    rcases List.mem_cons.mp hx with rfl | h
    · exact le_trans (le_max_right b x) (init_le_foldl_max ys _)
    · exact ih _ h

theorem foldl_max_mem (xs : List Int) (b : Int) :
    xs.foldl max b = b ∨ xs.foldl max b ∈ xs := by
  induction xs generalizing b with
  | nil => left; rfl
  | cons y ys ih =>
    simp only [List.foldl_cons]
    rcases ih (max b y) with h | h
    · rcases max_cases b y with ⟨h2, _⟩ | ⟨h2, _⟩
      · left; rw [h, h2]
      · right; rw [h, h2]; exact List.mem_cons_self y ys
    · right; exact List.mem_cons_of_mem y h

theorem le_listMax (l : List Int) (x : Int) (hx : x ∈ l) : x ≤ listMax l := by
  cases l with
  | nil => cases hx
  | cons y ys =>
    unfold listMax
    rcases List.mem_cons.mp hx with rfl | h
    · exact init_le_foldl_max ys x
    · exact mem_le_foldl_max ys y x h

theorem listMax_mem (l : List Int) (h : l ≠ []) : listMax l ∈ l := by
  cases l with
  | nil => exact absurd rfl h
  | cons y ys =>
    show List.foldl max y ys ∈ y :: ys
    rcases foldl_max_mem ys y with h2 | h2
    · rw [h2]; exact List.mem_cons_self y ys
    · exact List.mem_cons_of_mem y h2

theorem perm_ne_nil (l1 l2 : List Int) (h : l1.Perm l2) (h1 : l1 ≠ []) :
    l2 ≠ [] := by
  intro hnil
  rw [hnil] at h
  exact h1 h.eq_nil

theorem listMin_perm (l1 l2 : List Int) (h : l1.Perm l2) :
    listMin l1 = listMin l2 := by
  cases l1 with
  | nil =>
    rw [h.symm.eq_nil]
  | cons y ys =>
    have h1 : (y :: ys) ≠ ([] : List Int) := by simp
    have h2 : l2 ≠ [] := perm_ne_nil _ _ h h1
    exact le_antisymm
      (listMin_le _ _ (h.mem_iff.mpr (listMin_mem l2 h2)))
      (listMin_le _ _ (h.mem_iff.mp (listMin_mem _ h1)))

theorem listMax_perm (l1 l2 : List Int) (h : l1.Perm l2) :
    listMax l1 = listMax l2 := by
  cases l1 with
  | nil =>
    rw [h.symm.eq_nil]
  | cons y ys =>
    have h1 : (y :: ys) ≠ ([] : List Int) := by simp
    have h2 : l2 ≠ [] := perm_ne_nil _ _ h h1
    exact le_antisymm
      (le_listMax _ _ (h.mem_iff.mp (listMax_mem _ h1)))
      (le_listMax _ _ (h.mem_iff.mpr (listMax_mem l2 h2)))

/-! ## Amount sums of the three spreading algorithms -/

theorem sum_map_amount_const (months : List Date) (c : ℚ) :
    ((months.map (fun m => (⟨m.year, m.month, c⟩ : RevenueAllocation))).map
      (fun a => a.amount)).sum = months.length * c := by
  rw [List.map_map]
  have hf : (fun a : RevenueAllocation => a.amount) ∘
      (fun m : Date => (⟨m.year, m.month, c⟩ : RevenueAllocation)) =
      fun _ => c := rfl
  rw [hf, List.map_const', List.sum_replicate, nsmul_eq_mul]

theorem spreadMaintenance_amount_sum (amount : ℚ) (start stop : Date)
    (h : monthIndex start ≤ monthIndex stop) :
    ((spreadMaintenance amount start stop).map (fun a => a.amount)).sum
      = amount := by
  unfold spreadMaintenance
  have hne := iterCalendarMonthStarts_ne_nil start stop h
  rw [if_neg hne, sum_map_amount_const]
  have hlen : ((iterCalendarMonthStarts start stop).length : ℚ) ≠ 0 := by
    have h0 : (iterCalendarMonthStarts start stop).length ≠ 0 := by
      simpa [List.length_eq_zero] using hne
    exact_mod_cast h0
  rw [mul_comm, div_mul_cancel₀ _ hlen]

theorem spreadTravaux_amount_sum (amount : ℚ) (start stop : Date)
    (h : monthIndex start ≤ monthIndex stop) :
    ((spreadTravaux amount start stop).map (fun a => a.amount)).sum
      = amount := by
  unfold spreadTravaux
  split
  · simp
  · exact spreadMaintenance_amount_sum amount start stop h

theorem conceptionPhase_amount_sum (cur : Date) (n : Nat) (amt : ℚ) :
    (((conceptionPhase cur n amt).1).map (fun a => a.amount)).sum
      = n * amt := by
  induction n generalizing cur with
  | zero => simp [conceptionPhase]
  | succ n ih =>
    rw [conceptionPhase]
    dsimp only
    rw [List.map_cons, List.sum_cons, ih]
    push_cast
    ring

theorem spreadConception_amount_sum (amount : ℚ) (start : Date) :
    ((spreadConception amount start).map (fun a => a.amount)).sum
      = amount := by
  unfold spreadConception
  split
  · rw [conceptionPhase_amount_sum]; push_cast; ring
  · split
    · dsimp only
      rw [List.map_append, List.sum_append, conceptionPhase_amount_sum,
        conceptionPhase_amount_sum]
      push_cast
      ring
    · dsimp only
      rw [List.map_append, List.sum_append, conceptionPhase_amount_sum,
        conceptionPhase_amount_sum]
      push_cast
      ring

/-! ## Clamping lemmas -/

theorem clamp_amount (a : RevenueAllocation) (f l : Int) :
    (clampAllocationToWindow a f l).amount = a.amount := by
  unfold clampAllocationToWindow
  split
  · rfl
  · split <;> rfl

theorem clamp_eq_self (a : RevenueAllocation) (f l : Int)
    (h1 : f ≤ a.year) (h2 : a.year ≤ l) :
    clampAllocationToWindow a f l = a := by
  unfold clampAllocationToWindow
  rw [if_neg (not_lt.mpr h1), if_neg (not_lt.mpr h2)]

theorem clamp_year_mem (years : List Int) (hne : years ≠ [])
    (hcont : ∀ y : Int, listMin years ≤ y → y ≤ listMax years → y ∈ years)
    (a : RevenueAllocation) :
    (clampAllocationToWindow a (listMin years) (listMax years)).year ∈ years := by
  unfold clampAllocationToWindow
  split
  · exact listMin_mem years hne
  · split
    · exact listMax_mem years hne
    · rename_i h1 h2
      exact hcont a.year (not_lt.mp h1) (not_lt.mp h2)

theorem clamp_validMonth (a : RevenueAllocation) (f l : Int)
    (h : 1 ≤ a.month ∧ a.month ≤ 12) :
    1 ≤ (clampAllocationToWindow a f l).month ∧
      (clampAllocationToWindow a f l).month ≤ 12 := by
  unfold clampAllocationToWindow
  split
  · exact ⟨le_refl 1, by norm_num⟩
  · split
    · norm_num
    · exact h

/-! ## Accumulation lemmas -/

theorem addAllocation_total_apply (years : List Int) (p : ℚ)
    (res : AllocationResult) (a : RevenueAllocation) (y : Int)
    (h : a.year ∈ years) :
    (addAllocation years p res a).total y =
      if y = a.year then res.total y + a.amount else res.total y := by
  unfold addAllocation
  rw [if_pos h]

theorem addAllocation_weighted_apply (years : List Int) (p : ℚ)
    (res : AllocationResult) (a : RevenueAllocation) (y : Int)
    (h : a.year ∈ years) :
    (addAllocation years p res a).weighted y =
      if y = a.year then res.weighted y + a.amount * p else res.weighted y := by
  unfold addAllocation
  rw [if_pos h]

theorem addAllocation_totalQ_apply (years : List Int) (p : ℚ)
    (res : AllocationResult) (a : RevenueAllocation) (qq y : Int)
    (h : a.year ∈ years) :
    (addAllocation years p res a).totalQ qq y =
      if qq = getQuarter a.month ∧ y = a.year then res.totalQ qq y + a.amount
      else res.totalQ qq y := by
  unfold addAllocation
  rw [if_pos h]

theorem addAllocation_weightedQ_apply (years : List Int) (p : ℚ)
    (res : AllocationResult) (a : RevenueAllocation) (qq y : Int)
    (h : a.year ∈ years) :
    (addAllocation years p res a).weightedQ qq y =
      if qq = getQuarter a.month ∧ y = a.year then
        res.weightedQ qq y + a.amount * p
      else res.weightedQ qq y := by
  unfold addAllocation
  rw [if_pos h]

theorem addAllocation_not_mem (years : List Int) (p : ℚ)
    (res : AllocationResult) (a : RevenueAllocation) (h : a.year ∉ years) :
    addAllocation years p res a = res := by
  unfold addAllocation
  rw [if_neg h]

theorem addAllocation_diag (years : List Int) (p : ℚ)
    (res : AllocationResult) (a : RevenueAllocation) :
    (addAllocation years p res a).rule_applied = res.rule_applied ∧
    (addAllocation years p res a).rule_name = res.rule_name ∧
    (addAllocation years p res a).effective_start = res.effective_start ∧
    (addAllocation years p res a).effective_stop = res.effective_stop := by
  unfold addAllocation
  split <;> exact ⟨rfl, rfl, rfl, rfl⟩

theorem foldl_not_mem (years : List Int) (p : ℚ)
    (allocs : List RevenueAllocation) (base : AllocationResult)
    (h : ∀ a ∈ allocs, a.year ∉ years) :
    allocs.foldl (addAllocation years p) base = base := by
  induction allocs generalizing base with
  | nil => rfl
  | cons a as ih =>
    rw [List.foldl_cons, addAllocation_not_mem years p base a
      (h a (List.mem_cons_self a as))]
    exact ih base (fun x hx => h x (List.mem_cons_of_mem a hx))

theorem sum_if_add (S : Finset Int) (f : Int → ℚ) (z : Int) (hz : z ∈ S)
    (v : ℚ) :
    (S.sum fun y => if y = z then f y + v else f y) = S.sum f + v := by
  have h1 : ∀ y ∈ S,
      (if y = z then f y + v else f y) = f y + (if y = z then v else 0) := by
    intro y _
    split <;> simp
  rw [Finset.sum_congr rfl h1, Finset.sum_add_distrib]
  congr 1
  rw [Finset.sum_ite_eq' S z fun _ => v]
  exact if_pos hz

theorem foldl_total_sum (years : List Int) (p : ℚ)
    (allocs : List RevenueAllocation) (h : ∀ a ∈ allocs, a.year ∈ years)
    (base : AllocationResult) :
    (years.toFinset.sum fun y =>
        (allocs.foldl (addAllocation years p) base).total y) =
      (years.toFinset.sum fun y => base.total y) +
        (allocs.map (fun a => a.amount)).sum := by
  induction allocs generalizing base with
  | nil => simp
  | cons a as ih =>
    have ha : a.year ∈ years := h a (List.mem_cons_self a as)
    rw [List.foldl_cons,
      ih (fun x hx => h x (List.mem_cons_of_mem a hx)) (addAllocation years p base a)]
    have hs : (years.toFinset.sum fun y => (addAllocation years p base a).total y)
        = years.toFinset.sum fun y =>
            if y = a.year then base.total y + a.amount else base.total y :=
      Finset.sum_congr rfl fun y _ => addAllocation_total_apply years p base a y ha
    rw [hs, sum_if_add _ _ _ (List.mem_toFinset.mpr ha), List.map_cons,
      List.sum_cons]
    ring

theorem foldl_single (years : List Int) (p : ℚ) (Y : Int) (hY : Y ∈ years)
    (allocs : List RevenueAllocation) (h : ∀ a ∈ allocs, a.year = Y)
    (base : AllocationResult) :
    ((allocs.foldl (addAllocation years p) base).total Y =
        base.total Y + (allocs.map (fun a => a.amount)).sum) ∧
    ((allocs.foldl (addAllocation years p) base).weighted Y =
        base.weighted Y + (allocs.map (fun a => a.amount)).sum * p) := by
  induction allocs generalizing base with
  | nil => simp
  | cons a as ih =>
    have ha : a.year = Y := h a (List.mem_cons_self a as)
    have hmem : a.year ∈ years := ha ▸ hY
    rw [List.foldl_cons]
    obtain ⟨ih1, ih2⟩ :=
      ih (fun x hx => h x (List.mem_cons_of_mem a hx)) (addAllocation years p base a)
    constructor
    · rw [ih1, addAllocation_total_apply years p base a Y hmem, if_pos ha.symm,
        List.map_cons, List.sum_cons]
      ring
    · rw [ih2, addAllocation_weighted_apply years p base a Y hmem, if_pos ha.symm,
        List.map_cons, List.sum_cons]
      ring

theorem foldAllocations_total_sum (years : List Int) (hne : years ≠ [])
    (hcont : ∀ y : Int, listMin years ≤ y → y ≤ listMax years → y ∈ years)
    (p : ℚ) (base : AllocationResult) (allocs : List RevenueAllocation)
    (hbase : ∀ y, base.total y = 0) :
    (years.toFinset.sum fun y =>
        (foldAllocations years (listMin years) (listMax years) p base
          allocs).total y) =
      (allocs.map (fun a => a.amount)).sum := by
  unfold foldAllocations
  rw [foldl_total_sum years p _
    (fun a ha => by
      rcases List.mem_map.mp ha with ⟨a0, _, rfl⟩
      exact clamp_year_mem years hne hcont a0) base]
  have hz : (years.toFinset.sum fun y => base.total y) = 0 :=
    Finset.sum_eq_zero fun y _ => hbase y
  rw [hz, zero_add, List.map_map]
  exact congrArg List.sum (List.map_congr_left fun a _ => clamp_amount a _ _)

theorem foldAllocations_single (years : List Int) (p : ℚ) (Y : Int)
    (hY : Y ∈ years) (base : AllocationResult)
    (allocs : List RevenueAllocation) (h : ∀ a ∈ allocs, a.year = Y) :
    ((foldAllocations years (listMin years) (listMax years) p base
        allocs).total Y = base.total Y + (allocs.map (fun a => a.amount)).sum) ∧
    ((foldAllocations years (listMin years) (listMax years) p base
        allocs).weighted Y =
      base.weighted Y + (allocs.map (fun a => a.amount)).sum * p) := by
  unfold foldAllocations
  have hclamp :
      allocs.map (fun a =>
        clampAllocationToWindow a (listMin years) (listMax years)) = allocs := by
    have h1 : ∀ a ∈ allocs,
        clampAllocationToWindow a (listMin years) (listMax years) = id a := by
      intro a ha
      exact clamp_eq_self a _ _
        (by rw [h a ha]; exact listMin_le years Y hY)
        (by rw [h a ha]; exact le_listMax years Y hY)
    rw [List.map_congr_left h1, List.map_id]
  rw [hclamp]
  exact foldl_single years p Y hY allocs h base

/-! ## Validity propagation through the date resolver -/

theorem rule1_valid (bu : String) (d e : Date) (hd : validMonth d)
    (he : validMonth e) :
    validOpt (rule1 bu d e).effective_start ∧
      validOpt (rule1 bu d e).effective_stop := by
  unfold rule1
  split_ifs
  · exact ⟨validMonth_addMonths _ _, he⟩
  · exact ⟨hd, he⟩
  · exact ⟨hd, trivial⟩
  · exact ⟨hd, he⟩

theorem rule2_valid (bu : String) (s : Date) (hs : validMonth s) :
    validOpt (rule2 bu s).effective_start ∧
      validOpt (rule2 bu s).effective_stop := by
  unfold rule2
  split_ifs
  · exact ⟨hs, validMonth_addMonths _ _⟩
  · exact ⟨hs, validMonth_addMonths _ _⟩
  · exact ⟨hs, trivial⟩
  · exact ⟨hs, validMonth_addMonths _ _⟩

theorem rule3_valid (bu : String) (d : Date) (hd : validMonth d) :
    validOpt (rule3 bu d).effective_start ∧
      validOpt (rule3 bu d).effective_stop := by
  unfold rule3
  split_ifs
  · exact ⟨hd, validMonth_addMonths _ _⟩
  · exact ⟨hd, validMonth_addMonths _ _⟩
  · exact ⟨hd, trivial⟩
  · exact ⟨hd, validMonth_addMonths _ _⟩

theorem resolver_valid (row : Row) (hv : ValidRow row) :
    validOpt (computeEffectiveDates row).effective_start ∧
      validOpt (computeEffectiveDates row).effective_stop := by
  obtain ⟨hs, he, hd⟩ := hv
  unfold computeEffectiveDates
  rcases hps : row.projet_start with _ | s <;>
    rcases hpe : row.projet_stop with _ | e <;>
    rw [hps] at hs <;> rw [hpe] at he <;> dsimp only
  · rcases hpd : row.date with _ | d
    · exact ⟨trivial, trivial⟩
    · rw [hpd] at hd
      exact rule3_valid _ _ hd
  · rcases hpd : row.date with _ | d
    · exact ⟨trivial, trivial⟩
    · rw [hpd] at hd
      exact rule1_valid _ _ _ hd he
  · rcases hpd : row.date with _ | d
    · exact ⟨trivial, trivial⟩
    · exact rule2_valid _ _ hs
  · split
    · exact ⟨hs, he⟩
    · rcases hpd : row.date with _ | d
      · exact ⟨trivial, trivial⟩
      · rw [hpd] at hd
        exact rule3_valid _ _ hd

/-! ## Structure of the CONCEPTION phases -/

/-- Statement vocabulary for the claims about spreading patterns: `n`
monthly fragments of amount `amt`, one in each of the `n` consecutive
calendar months starting at linear month index `idx`. -/
def specFragments (idx : Int) (n : Nat) (amt : ℚ) : List RevenueAllocation :=
  (List.range n).map
    (fun i : Nat => ⟨(idx + i) / 12, (idx + i) % 12 + 1, amt⟩)

theorem specFragments_succ (idx : Int) (n : Nat) (amt : ℚ) :
    specFragments idx (n + 1) amt =
      ⟨idx / 12, idx % 12 + 1, amt⟩ :: specFragments (idx + 1) n amt := by
  unfold specFragments
  rw [List.range_succ_eq_map, List.map_cons, List.map_map]
  congr 1
  · norm_num
  · refine List.map_congr_left fun i _ => ?_
    simp only [Function.comp_apply, RevenueAllocation.mk.injEq]
    refine ⟨?_, ?_, trivial⟩ <;> (push_cast; omega)

theorem conceptionPhase_char (cur : Date) (hv : validMonth cur) (n : Nat)
    (amt : ℚ) :
    (conceptionPhase cur n amt).1 = specFragments (monthIndex cur) n amt ∧
    monthIndex (conceptionPhase cur n amt).2 = monthIndex cur + n ∧
    validMonth (conceptionPhase cur n amt).2 := by
  induction n generalizing cur with
  | zero =>
    refine ⟨by simp [conceptionPhase, specFragments], ?_, hv⟩
    show monthIndex cur = monthIndex cur + ((0 : Nat) : Int)
    norm_num
  | succ n ih =>
    obtain ⟨ih1, ih2, ih3⟩ := ih (addMonths cur 1) (validMonth_addMonths _ _)
    rw [conceptionPhase]
    dsimp only
    refine ⟨?_, ?_, ih3⟩
    · rw [ih1, specFragments_succ, monthIndex_addMonths]
      congr 2
      · exact (year_of_monthIndex cur hv).symm
      · exact (month_of_monthIndex cur hv).symm
    · rw [ih2, monthIndex_addMonths]
      push_cast
      ring

/-- Every fragment of a CONCEPTION phase sits in a calendar-valid month. -/
theorem conceptionPhase_validMonths (cur : Date) (hv : validMonth cur)
    (n : Nat) (amt : ℚ) (a : RevenueAllocation)
    (ha : a ∈ (conceptionPhase cur n amt).1) :
    1 ≤ a.month ∧ a.month ≤ 12 := by
  rw [(conceptionPhase_char cur hv n amt).1] at ha
  unfold specFragments at ha
  rcases List.mem_map.mp ha with ⟨i, _, rfl⟩
  dsimp only
  omega

/-- A list of allocations whose months are all calendar-valid. -/
def allocMonthsValid (l : List RevenueAllocation) : Prop :=
  ∀ a ∈ l, 1 ≤ a.month ∧ a.month ≤ 12

theorem spreadConception_validMonths (amount : ℚ) (start : Date)
    (hv : validMonth start) :
    allocMonthsValid (spreadConception amount start) := by
  unfold spreadConception
  split
  · exact fun a ha => conceptionPhase_validMonths start hv 3 _ a ha
  · split <;>
    · dsimp only
      intro a ha
      rcases List.mem_append.mp ha with h | h
      · exact conceptionPhase_validMonths start hv _ _ a h
      · exact conceptionPhase_validMonths _ (validMonth_addMonths _ _) _ _ a h

theorem spreadMaintenance_validMonths (amount : ℚ) (start stop : Date) :
    allocMonthsValid (spreadMaintenance amount start stop) := by
  unfold spreadMaintenance
  dsimp only
  split
  · intro a ha; cases ha
  · intro a ha
    rcases List.mem_map.mp ha with ⟨m, hm, rfl⟩
    have hvm : validMonth m := by
      unfold iterCalendarMonthStarts at hm
      dsimp only at hm
      split at hm
      · cases hm
      · exact validMonth_of_mem_monthRangeAux _ _ _ hm
    exact hvm

theorem spreadTravaux_validMonths (amount : ℚ) (start stop : Date)
    (hv : validMonth start) :
    allocMonthsValid (spreadTravaux amount start stop) := by
  unfold spreadTravaux
  split
  · intro a ha
    rcases List.mem_singleton.mp ha with rfl
    exact hv
  · exact spreadMaintenance_validMonths amount start stop

/-! ## Structure of `calculate_revenue` -/

/-- Every run of `calculate_revenue` is a clamp-and-accumulate fold of
some allocation list over a base result whose financial columns are all
zero; the allocations have calendar-valid months (for a valid row), and
their amounts sum to the row's amount whenever spreading happened at
all (non-zero amount and a resolvable effective start). -/
theorem effectiveStopWithFallback_ge (o : Option Date) (es : Date)
    (hes : validMonth es) (ho : validOpt o) :
    monthIndex es ≤ monthIndex (effectiveStopWithFallback o es) := by
  unfold effectiveStopWithFallback
  cases o with
  | none => exact le_refl _
  | some st =>
    dsimp only
    split
    · exact le_refl _
    · rename_i hlt
      exact monthIndex_le_of_dateLe es st hes ho (dateLe_of_not_dateLt st es hlt)

theorem calculateRevenue_shape (years : List Int) (row : Row) :
    ∃ (base : AllocationResult) (allocs : List RevenueAllocation),
      calculateRevenue years row =
        foldAllocations years (listMin years) (listMax years)
          row.probability_factor base allocs ∧
      base.total = zeroResult.total ∧
      base.weighted = zeroResult.weighted ∧
      base.totalQ = zeroResult.totalQ ∧
      base.weightedQ = zeroResult.weightedQ ∧
      (ValidRow row → allocMonthsValid allocs) ∧
      (row.amount ≠ 0 → (computeEffectiveDates row).effective_start ≠ none →
        ValidRow row →
        (allocs.map (fun a => a.amount)).sum = row.amount) := by
  unfold calculateRevenue
  by_cases h0 : row.amount = 0
  · rw [if_pos h0]
    exact ⟨zeroResult, [], rfl, rfl, rfl, rfl, rfl,
      fun _ => fun a ha => absurd ha (List.not_mem_nil a),
      fun h => absurd h0 h⟩
  · rw [if_neg h0]
    dsimp only
    rcases hes : (computeEffectiveDates row).effective_start with _ | es
    · simp only [allocateResolved]
      exact ⟨_, [], rfl, rfl, rfl, rfl, rfl,
        fun _ => fun a ha => absurd ha (List.not_mem_nil a),
        fun _ hne _ => absurd rfl hne⟩
    · simp only [allocateResolved]
      have hesv : ValidRow row → validMonth es := by
        intro hv
        have hval := (resolver_valid row hv).1
        rw [hes] at hval
        exact hval
      have hstv : ValidRow row → validOpt (computeEffectiveDates row).effective_stop :=
        fun hv => (resolver_valid row hv).2
      by_cases hbu : row.final_bu = "CONCEPTION"
      · rw [if_pos hbu]
        refine ⟨_, _, rfl, rfl, rfl, rfl, rfl, ?_, ?_⟩
        · intro hv
          exact spreadConception_validMonths row.amount es (hesv hv)
        · intro _ _ _
          exact spreadConception_amount_sum row.amount es
      · rw [if_neg hbu]
        by_cases hbu2 : row.final_bu = "MAINTENANCE"
        · rw [if_pos hbu2]
          refine ⟨_, _, rfl, ?_, ?_, ?_, ?_, ?_, ?_⟩
          · split <;> rfl
          · split <;> rfl
          · split <;> rfl
          · split <;> rfl
          · intro _
            exact spreadMaintenance_validMonths row.amount es _
          · intro _ _ hv
            exact spreadMaintenance_amount_sum row.amount es _
              (effectiveStopWithFallback_ge _ es (hesv hv) (hstv hv))
        · rw [if_neg hbu2]
          refine ⟨_, _, rfl, ?_, ?_, ?_, ?_, ?_, ?_⟩
          · split <;> rfl
          · split <;> rfl
          · split <;> rfl
          · split <;> rfl
          · intro hv
            exact spreadTravaux_validMonths row.amount es _ (hesv hv)
          · intro _ _ hv
            exact spreadTravaux_amount_sum row.amount es _
              (effectiveStopWithFallback_ge _ es (hesv hv) (hstv hv))

/-! ## Proportionality and coherence invariants of the fold -/

theorem foldl_proportional (years : List Int) (p : ℚ)
    (allocs : List RevenueAllocation) (base : AllocationResult)
    (h1 : ∀ y, base.weighted y = base.total y * p)
    (h2 : ∀ q y, base.weightedQ q y = base.totalQ q y * p) :
    (∀ y, (allocs.foldl (addAllocation years p) base).weighted y =
        (allocs.foldl (addAllocation years p) base).total y * p) ∧
    (∀ q y, (allocs.foldl (addAllocation years p) base).weightedQ q y =
        (allocs.foldl (addAllocation years p) base).totalQ q y * p) := by
  induction allocs generalizing base with
  | nil => exact ⟨h1, h2⟩
  | cons a as ih =>
    rw [List.foldl_cons]
    refine ih _ ?_ ?_
    · intro y
      by_cases hm : a.year ∈ years
      · rw [addAllocation_weighted_apply years p base a y hm,
          addAllocation_total_apply years p base a y hm]
        by_cases hy : y = a.year
        · rw [if_pos hy, if_pos hy, h1 y]
          ring
        · rw [if_neg hy, if_neg hy]
          exact h1 y
      · rw [addAllocation_not_mem years p base a hm]
        exact h1 y
    · intro q y
      by_cases hm : a.year ∈ years
      · rw [addAllocation_weightedQ_apply years p base a q y hm,
          addAllocation_totalQ_apply years p base a q y hm]
        by_cases hqy : q = getQuarter a.month ∧ y = a.year
        · rw [if_pos hqy, if_pos hqy, h2 q y]
          ring
        · rw [if_neg hqy, if_neg hqy]
          exact h2 q y
      · rw [addAllocation_not_mem years p base a hm]
        exact h2 q y

theorem addAllocation_coherent_total (years : List Int) (p : ℚ)
    (base : AllocationResult) (a : RevenueAllocation)
    (hm : 1 ≤ a.month ∧ a.month ≤ 12)
    (h1 : ∀ y, base.total y =
      base.totalQ 1 y + base.totalQ 2 y + base.totalQ 3 y + base.totalQ 4 y) :
    ∀ y, (addAllocation years p base a).total y =
      (addAllocation years p base a).totalQ 1 y +
      (addAllocation years p base a).totalQ 2 y +
      (addAllocation years p base a).totalQ 3 y +
      (addAllocation years p base a).totalQ 4 y := by
  intro y
  by_cases hmem : a.year ∈ years
  · rw [addAllocation_total_apply years p base a y hmem,
      addAllocation_totalQ_apply years p base a 1 y hmem,
      addAllocation_totalQ_apply years p base a 2 y hmem,
      addAllocation_totalQ_apply years p base a 3 y hmem,
      addAllocation_totalQ_apply years p base a 4 y hmem]
    have hq : getQuarter a.month = 1 ∨ getQuarter a.month = 2 ∨
        getQuarter a.month = 3 ∨ getQuarter a.month = 4 := by
      unfold getQuarter
      omega
    by_cases hy : y = a.year
    · rcases hq with hq | hq | hq | hq <;> rw [hq] <;>
        simp only [hy, and_true, and_false] <;> norm_num <;>
        linear_combination h1 a.year
    · simp only [hy, and_false, if_false]
      exact h1 y
  · rw [addAllocation_not_mem years p base a hmem]
    exact h1 y

theorem addAllocation_coherent_weighted (years : List Int) (p : ℚ)
    (base : AllocationResult) (a : RevenueAllocation)
    (hm : 1 ≤ a.month ∧ a.month ≤ 12)
    (h2 : ∀ y, base.weighted y =
      base.weightedQ 1 y + base.weightedQ 2 y + base.weightedQ 3 y +
        base.weightedQ 4 y) :
    ∀ y, (addAllocation years p base a).weighted y =
      (addAllocation years p base a).weightedQ 1 y +
      (addAllocation years p base a).weightedQ 2 y +
      (addAllocation years p base a).weightedQ 3 y +
      (addAllocation years p base a).weightedQ 4 y := by
  intro y
  by_cases hmem : a.year ∈ years
  · rw [addAllocation_weighted_apply years p base a y hmem,
      addAllocation_weightedQ_apply years p base a 1 y hmem,
      addAllocation_weightedQ_apply years p base a 2 y hmem,
      addAllocation_weightedQ_apply years p base a 3 y hmem,
      addAllocation_weightedQ_apply years p base a 4 y hmem]
    have hq : getQuarter a.month = 1 ∨ getQuarter a.month = 2 ∨
        getQuarter a.month = 3 ∨ getQuarter a.month = 4 := by
      unfold getQuarter
      omega
    by_cases hy : y = a.year
    · rcases hq with hq | hq | hq | hq <;> rw [hq] <;>
        simp only [hy, and_true, and_false] <;> norm_num <;>
        linear_combination h2 a.year
    · simp only [hy, and_false, if_false]
      exact h2 y
  · rw [addAllocation_not_mem years p base a hmem]
    exact h2 y

theorem foldl_coherent (years : List Int) (p : ℚ)
    (allocs : List RevenueAllocation)
    (hval : ∀ a ∈ allocs, 1 ≤ a.month ∧ a.month ≤ 12)
    (base : AllocationResult)
    (h1 : ∀ y, base.total y =
      base.totalQ 1 y + base.totalQ 2 y + base.totalQ 3 y + base.totalQ 4 y)
    (h2 : ∀ y, base.weighted y =
      base.weightedQ 1 y + base.weightedQ 2 y + base.weightedQ 3 y +
        base.weightedQ 4 y) :
    (∀ y, (allocs.foldl (addAllocation years p) base).total y =
        (allocs.foldl (addAllocation years p) base).totalQ 1 y +
        (allocs.foldl (addAllocation years p) base).totalQ 2 y +
        (allocs.foldl (addAllocation years p) base).totalQ 3 y +
        (allocs.foldl (addAllocation years p) base).totalQ 4 y) ∧
    (∀ y, (allocs.foldl (addAllocation years p) base).weighted y =
        (allocs.foldl (addAllocation years p) base).weightedQ 1 y +
        (allocs.foldl (addAllocation years p) base).weightedQ 2 y +
        (allocs.foldl (addAllocation years p) base).weightedQ 3 y +
        (allocs.foldl (addAllocation years p) base).weightedQ 4 y) := by
  induction allocs generalizing base with
  | nil => exact ⟨h1, h2⟩
  | cons a as ih =>
    rw [List.foldl_cons]
    exact ih (fun x hx => hval x (List.mem_cons_of_mem a hx)) _
      (addAllocation_coherent_total years p base a
        (hval a (List.mem_cons_self a as)) h1)
      (addAllocation_coherent_weighted years p base a
        (hval a (List.mem_cons_self a as)) h2)

/-- Claim C6 (weighted proportionality): for every input row and every
tracked year `y` (and every quarter `q` of `y`), the result satisfies
`weighted[y] = total[y] * probability_factor` and
`weightedQ q [y] = totalQ q [y] * probability_factor`, because the
single per-row probability factor multiplies every fragment. -/
theorem C6_weighted_proportionality (ys : List Int) (row : Row) (y q : Int) :
    ((calculateRevenue (mkYearsToTrack ys) row).weighted y =
      (calculateRevenue (mkYearsToTrack ys) row).total y *
        row.probability_factor) ∧
    ((calculateRevenue (mkYearsToTrack ys) row).weightedQ q y =
      (calculateRevenue (mkYearsToTrack ys) row).totalQ q y *
        row.probability_factor) := by
  obtain ⟨base, allocs, heq, h1, h2, h3, h4, _, _⟩ :=
    calculateRevenue_shape (mkYearsToTrack ys) row
  rw [heq]
  unfold foldAllocations
  have hb1 : ∀ z, base.weighted z = base.total z * row.probability_factor := by
    intro z
    rw [h2, h1]
    show (0 : ℚ) = 0 * row.probability_factor
    ring
  have hb2 : ∀ qq z, base.weightedQ qq z =
      base.totalQ qq z * row.probability_factor := by
    intro qq z
    rw [h4, h3]
    show (0 : ℚ) = 0 * row.probability_factor
    ring
  obtain ⟨hw, hwq⟩ := foldl_proportional (mkYearsToTrack ys)
    row.probability_factor _ base hb1 hb2
  exact ⟨hw y, hwq q y⟩

/-- Claim C5 (quarter/year coherence): for every input row and every
year `y`, `total[y] = totalQ 1 [y] + totalQ 2 [y] + totalQ 3 [y] +
totalQ 4 [y]`, exactly, and likewise for the weighted fields, because
year and quarter sums are accumulated from the same clamped fragments.
The hypothesis `ValidRow row` is the data-type invariant of pandas
timestamps (month fields between 1 and 12). -/
theorem C5_quarter_year_coherence (ys : List Int) (row : Row)
    (hv : ValidRow row) (y : Int) :
    ((calculateRevenue (mkYearsToTrack ys) row).total y =
      (calculateRevenue (mkYearsToTrack ys) row).totalQ 1 y +
      (calculateRevenue (mkYearsToTrack ys) row).totalQ 2 y +
      (calculateRevenue (mkYearsToTrack ys) row).totalQ 3 y +
      (calculateRevenue (mkYearsToTrack ys) row).totalQ 4 y) ∧
    ((calculateRevenue (mkYearsToTrack ys) row).weighted y =
      (calculateRevenue (mkYearsToTrack ys) row).weightedQ 1 y +
      (calculateRevenue (mkYearsToTrack ys) row).weightedQ 2 y +
      (calculateRevenue (mkYearsToTrack ys) row).weightedQ 3 y +
      (calculateRevenue (mkYearsToTrack ys) row).weightedQ 4 y) := by
  obtain ⟨base, allocs, heq, h1, h2, h3, h4, hvalid, _⟩ :=
    calculateRevenue_shape (mkYearsToTrack ys) row
  rw [heq]
  unfold foldAllocations
  have hmv : ∀ a ∈ allocs.map (fun a =>
      clampAllocationToWindow a (listMin (mkYearsToTrack ys))
        (listMax (mkYearsToTrack ys))), 1 ≤ a.month ∧ a.month ≤ 12 := by
    intro a ha
    rcases List.mem_map.mp ha with ⟨a0, ha0, rfl⟩
    exact clamp_validMonth a0 _ _ (hvalid hv a0 ha0)
  have hc1 : ∀ z, base.total z =
      base.totalQ 1 z + base.totalQ 2 z + base.totalQ 3 z + base.totalQ 4 z := by
    intro z
    rw [h1, h3]
    show (0 : ℚ) = 0 + 0 + 0 + 0
    norm_num
  have hc2 : ∀ z, base.weighted z =
      base.weightedQ 1 z + base.weightedQ 2 z + base.weightedQ 3 z +
        base.weightedQ 4 z := by
    intro z
    rw [h2, h4]
    show (0 : ℚ) = 0 + 0 + 0 + 0
    norm_num
  obtain ⟨ht, hw⟩ := foldl_coherent (mkYearsToTrack ys)
    row.probability_factor _ hmv base hc1 hc2
  exact ⟨ht y, hw y⟩

/-- Concrete input for the witness of C5: a TRAVAUX row spread over
eight calendar months of 2025. -/
def rowW5 : Row :=
  ⟨6000, 1/2, "TRAVAUX", some ⟨2025, 1, 10⟩, some ⟨2025, 8, 20⟩, none⟩

/-- Witness for C5 at a concrete input. -/
theorem C5_witness :
    ValidRow rowW5 ∧
    (((calculateRevenue (mkYearsToTrack [2025, 2026]) rowW5).total 2025 =
      (calculateRevenue (mkYearsToTrack [2025, 2026]) rowW5).totalQ 1 2025 +
      (calculateRevenue (mkYearsToTrack [2025, 2026]) rowW5).totalQ 2 2025 +
      (calculateRevenue (mkYearsToTrack [2025, 2026]) rowW5).totalQ 3 2025 +
      (calculateRevenue (mkYearsToTrack [2025, 2026]) rowW5).totalQ 4 2025) ∧
    ((calculateRevenue (mkYearsToTrack [2025, 2026]) rowW5).weighted 2025 =
      (calculateRevenue (mkYearsToTrack [2025, 2026]) rowW5).weightedQ 1 2025 +
      (calculateRevenue (mkYearsToTrack [2025, 2026]) rowW5).weightedQ 2 2025 +
      (calculateRevenue (mkYearsToTrack [2025, 2026]) rowW5).weightedQ 3 2025 +
      (calculateRevenue (mkYearsToTrack [2025, 2026]) rowW5).weightedQ 4 2025)) :=
  ⟨by decide, C5_quarter_year_coherence [2025, 2026] rowW5 (by decide) 2025⟩

/-- Claim C1 (amended, clamping conservation): for every row with
`amount > 0` and a resolvable effective start (the 1-month fallback
always supplies an effective stop for the duration-based units), and
every nonempty tracked-years list with no gaps (every integer year
between its minimum and maximum is in the list), the sum over all
tracked years of `total[y]` equals the row's amount exactly.  The
gap-freedom hypothesis is the amendment: with a gapped list, fragments
in an in-window year that is missing from the list are dropped. -/
theorem C1_clamping_conservation (ys : List Int) (row : Row)
    (hne : ys ≠ [])
    (hcont : ∀ y : Int, listMin ys ≤ y → y ≤ listMax ys → y ∈ ys)
    (hv : ValidRow row) (hpos : 0 < row.amount)
    (hstart : (computeEffectiveDates row).effective_start ≠ none) :
    (ys.toFinset.sum fun y =>
      (calculateRevenue (mkYearsToTrack ys) row).total y) = row.amount := by
  have hperm : (mkYearsToTrack ys).Perm ys := List.perm_insertionSort _ ys
  have hneY : mkYearsToTrack ys ≠ [] := perm_ne_nil ys _ hperm.symm hne
  have hminY : listMin (mkYearsToTrack ys) = listMin ys := listMin_perm _ _ hperm
  have hmaxY : listMax (mkYearsToTrack ys) = listMax ys := listMax_perm _ _ hperm
  have hcontY : ∀ y : Int, listMin (mkYearsToTrack ys) ≤ y →
      y ≤ listMax (mkYearsToTrack ys) → y ∈ mkYearsToTrack ys := by
    intro y hy1 hy2
    rw [hminY] at hy1
    rw [hmaxY] at hy2
    exact hperm.mem_iff.mpr (hcont y hy1 hy2)
  have htf : (mkYearsToTrack ys).toFinset = ys.toFinset := by
    apply Finset.ext
    intro a
    simp only [List.mem_toFinset]
    exact hperm.mem_iff
  obtain ⟨base, allocs, heq, h1, _, _, _, _, hsum⟩ :=
    calculateRevenue_shape (mkYearsToTrack ys) row
  rw [heq, ← htf,
    foldAllocations_total_sum (mkYearsToTrack ys) hneY hcontY
      row.probability_factor base allocs (fun y => by simp [h1, zeroResult])]
  exact hsum (ne_of_gt hpos) hstart hv

/-- Concrete input refuting C1 as stated: a one-month MAINTENANCE
project in 2026 together with the gapped tracked window
`[2025, 2027]` - the 2026 fragment is inside the clamping window but
its year is not in the tracked list, so its amount is dropped. -/
def rowGap : Row :=
  ⟨12, 1, "MAINTENANCE", some ⟨2026, 1, 15⟩, some ⟨2026, 1, 15⟩, none⟩

/-- Counterexample to C1 as stated (quantifying over every
`tracked_years` list): with the gapped window `[2025, 2027]` the sum of
the yearly totals is `0`, not the row's amount `12`. -/
theorem C1_counterexample :
    ¬ ((([2025, 2027] : List Int).toFinset.sum fun y =>
        (calculateRevenue (mkYearsToTrack [2025, 2027]) rowGap).total y) =
      rowGap.amount) := by
  have hr : computeEffectiveDates rowGap =
      ⟨some ⟨2026, 1, 15⟩, some ⟨2026, 1, 15⟩, false, "none"⟩ := by decide
  have htot : ∀ y : Int,
      (calculateRevenue (mkYearsToTrack [2025, 2027]) rowGap).total y = 0 := by
    intro y
    unfold calculateRevenue
    rw [if_neg (by norm_num [rowGap])]
    dsimp only
    rw [hr]
    simp only [allocateResolved]
    rw [if_neg (by simp [rowGap])]
    unfold foldAllocations
    rw [foldl_not_mem]
    · rfl
    · intro a ha
      rcases List.mem_map.mp ha with ⟨a0, ha0, rfl⟩
      have hy : a0.year = 2026 := by
        have hmem : a0 ∈ spreadMaintenance rowGap.amount ⟨2026, 1, 15⟩
            (effectiveStopWithFallback (some ⟨2026, 1, 15⟩) ⟨2026, 1, 15⟩) := by
          simpa using ha0
        have hmap : (spreadMaintenance rowGap.amount ⟨2026, 1, 15⟩
            (effectiveStopWithFallback (some ⟨2026, 1, 15⟩) ⟨2026, 1, 15⟩)).map
              (fun a => a.year) = [2026] := by decide
        have hy2 := List.mem_map_of_mem (fun a => a.year) hmem
        rw [hmap] at hy2
        simpa using hy2
      simp [clampAllocationToWindow, hy, mkYearsToTrack, List.insertionSort,
        List.orderedInsert, listMin, listMax]
  intro h
  rw [Finset.sum_congr rfl (fun y _ => htot y), Finset.sum_const_zero] at h
  norm_num [rowGap] at h

/-- Concrete input for the witnesses of C1 and C10: a MAINTENANCE row
spread over twelve months spanning 2025 and 2026. -/
def rowW1 : Row :=
  ⟨12000, 1, "MAINTENANCE", some ⟨2025, 3, 10⟩, some ⟨2026, 2, 20⟩, none⟩

/-- Witness for C1 at a concrete input. -/
theorem C1_witness :
    ((([2025, 2026] : List Int) ≠ []) ∧
     (∀ y : Int, listMin [2025, 2026] ≤ y → y ≤ listMax [2025, 2026] →
        y ∈ ([2025, 2026] : List Int)) ∧
     ValidRow rowW1 ∧ 0 < rowW1.amount ∧
     (computeEffectiveDates rowW1).effective_start ≠ none) ∧
    (([2025, 2026] : List Int).toFinset.sum fun y =>
      (calculateRevenue (mkYearsToTrack [2025, 2026]) rowW1).total y) =
      rowW1.amount := by
  have hcont : ∀ y : Int, listMin [2025, 2026] ≤ y →
      y ≤ listMax [2025, 2026] → y ∈ ([2025, 2026] : List Int) := by
    intro y hy1 hy2
    norm_num [listMin, listMax] at hy1 hy2
    simp only [List.mem_cons, List.not_mem_nil, or_false]
    omega
  exact ⟨⟨by decide, hcont, by decide, by norm_num [rowW1], by decide⟩,
    C1_clamping_conservation [2025, 2026] rowW1 (by decide) hcont
      (by decide) (by norm_num [rowW1]) (by decide)⟩

/-- Claim C10 (order-insensitivity of the tracked window): permuting the
`years_to_track` list supplied at engine construction leaves the entire
`AllocationResult` unchanged - the constructor sorts the list, and two
permutations of each other have the same sorted form. -/
theorem C10_perm_invariance (l1 l2 : List Int) (h : l1.Perm l2) (row : Row) :
    calculateRevenue (mkYearsToTrack l1) row =
      calculateRevenue (mkYearsToTrack l2) row := by
  have hs : mkYearsToTrack l1 = mkYearsToTrack l2 :=
    List.eq_of_perm_of_sorted
      ((List.perm_insertionSort _ l1).trans
        (h.trans (List.perm_insertionSort _ l2).symm))
      (List.sorted_insertionSort _ l1)
      (List.sorted_insertionSort _ l2)
  rw [hs]

/-- Witness for C10 at a concrete input. -/
theorem C10_witness :
    (([2027, 2025, 2026] : List Int).Perm [2025, 2026, 2027]) ∧
    calculateRevenue (mkYearsToTrack [2027, 2025, 2026]) rowW1 =
      calculateRevenue (mkYearsToTrack [2025, 2026, 2027]) rowW1 :=
  ⟨by decide,
    C10_perm_invariance [2027, 2025, 2026] [2025, 2026, 2027] (by decide) rowW1⟩

/-- Claim C2 (amended): when `project_start` is present, `project_stop`
is missing and the proposal date is ALSO present, the resolver applies
Rule 2: MAINTENANCE gets `effective_stop = start + 11 months`,
TRAVAUX and AUTRE get `effective_stop = start + 5 months`, with
`rule_applied = true`.  The presence of the proposal date is the
amendment: the source checks `pd.isna(proposal_date)` before
dispatching any rule, so with the proposal date missing it returns
`missing_all_dates` even though Rule 2 never uses the proposal date. -/
theorem C2_rule2_end_missing (row : Row) (s d : Date)
    (h1 : row.projet_start = some s) (h2 : row.projet_stop = none)
    (h3 : row.date = some d) :
    (row.final_bu = "MAINTENANCE" →
      computeEffectiveDates row =
        ⟨some s, some (addMonths s 11), true, "rule2_end_missing_maintenance"⟩) ∧
    (row.final_bu = "TRAVAUX" →
      computeEffectiveDates row =
        ⟨some s, some (addMonths s 5), true, "rule2_end_missing_travaux"⟩) ∧
    (row.final_bu = "AUTRE" →
      computeEffectiveDates row =
        ⟨some s, some (addMonths s 5), true, "rule2_end_missing_default"⟩) := by
  unfold computeEffectiveDates
  rw [h1, h2, h3]
  dsimp only
  refine ⟨fun hbu => ?_, fun hbu => ?_, fun hbu => ?_⟩ <;>
    simp [rule2, hbu]

/-- Concrete input refuting C2 as stated: only the stop is missing, and
the proposal date is missing as well. -/
def rowC2 : Row := ⟨1000, 1, "MAINTENANCE", some ⟨2025, 1, 1⟩, none, none⟩

/-- Counterexample to C2 as stated: for a MAINTENANCE row with
`project_start = 2025-01-01`, `project_stop` missing and no proposal
date, the resolver does NOT return `(start, start + 11 months, true)`
(it returns `(NaT, NaT, false, "missing_all_dates")`). -/
theorem C2_counterexample :
    ¬ ((computeEffectiveDates rowC2).effective_start = some ⟨2025, 1, 1⟩ ∧
       (computeEffectiveDates rowC2).effective_stop =
         some (addMonths ⟨2025, 1, 1⟩ 11) ∧
       (computeEffectiveDates rowC2).rule_applied = true) := by
  decide

/-- Concrete input for the witness of C2. -/
def rowC2w : Row :=
  ⟨1000, 1, "MAINTENANCE", some ⟨2025, 3, 10⟩, none, some ⟨2025, 1, 5⟩⟩

/-- Witness for the amended C2 at a concrete input. -/
theorem C2_witness :
    (rowC2w.projet_start = some ⟨2025, 3, 10⟩ ∧ rowC2w.projet_stop = none ∧
      rowC2w.date = some ⟨2025, 1, 5⟩) ∧
    ((rowC2w.final_bu = "MAINTENANCE" →
      computeEffectiveDates rowC2w =
        ⟨some ⟨2025, 3, 10⟩, some (addMonths ⟨2025, 3, 10⟩ 11), true,
          "rule2_end_missing_maintenance"⟩) ∧
     (rowC2w.final_bu = "TRAVAUX" →
      computeEffectiveDates rowC2w =
        ⟨some ⟨2025, 3, 10⟩, some (addMonths ⟨2025, 3, 10⟩ 5), true,
          "rule2_end_missing_travaux"⟩) ∧
     (rowC2w.final_bu = "AUTRE" →
      computeEffectiveDates rowC2w =
        ⟨some ⟨2025, 3, 10⟩, some (addMonths ⟨2025, 3, 10⟩ 5), true,
          "rule2_end_missing_default"⟩)) :=
  ⟨⟨rfl, rfl, rfl⟩,
    C2_rule2_end_missing rowC2w ⟨2025, 3, 10⟩ ⟨2025, 1, 5⟩ rfl rfl rfl⟩

/-- Concrete input refuting C3 as stated: a zero-amount row with no
dates at all, for which the Date Resolver (had it run) would report
`missing_all_dates`. -/
def rowZ : Row := ⟨0, 1, "MAINTENANCE", none, none, none⟩

/-- Counterexample to C3 as stated: for a zero-amount row the result's
`rule_name` is NOT what the Date Resolver produces for that row - the
zero-amount guard returns before the resolver runs, so the result
carries the initial `"none"` while the resolver reports
`"missing_all_dates"`. -/
theorem C3_counterexample :
    ¬ ((calculateRevenue (mkYearsToTrack [2025, 2026, 2027, 2028])
          rowZ).rule_name = (computeEffectiveDates rowZ).rule_name) := by
  decide

/-- Claim C3 (amended): for a zero-amount row, `calculate_revenue`
short-circuits to the freshly initialized all-zero result with the
DEFAULT diagnostics (`rule_applied = false`, `rule_name = "none"`,
both effective dates `NaT`); the Date Resolver is never consulted. -/
theorem C3_zero_amount (ys : List Int) (row : Row) (h0 : row.amount = 0) :
    calculateRevenue (mkYearsToTrack ys) row = zeroResult ∧
    zeroResult.rule_applied = false ∧ zeroResult.rule_name = "none" ∧
    zeroResult.effective_start = none ∧ zeroResult.effective_stop = none ∧
    (∀ y q : Int, zeroResult.total y = 0 ∧ zeroResult.weighted y = 0 ∧
      zeroResult.totalQ q y = 0 ∧ zeroResult.weightedQ q y = 0) := by
  refine ⟨?_, rfl, rfl, rfl, rfl, fun y q => ⟨rfl, rfl, rfl, rfl⟩⟩
  unfold calculateRevenue
  rw [if_pos h0]

/-- Witness for the amended C3 at a concrete input. -/
theorem C3_witness :
    rowZ.amount = 0 ∧
    (calculateRevenue (mkYearsToTrack [2025]) rowZ = zeroResult ∧
     zeroResult.rule_applied = false ∧ zeroResult.rule_name = "none" ∧
     zeroResult.effective_start = none ∧ zeroResult.effective_stop = none ∧
     (∀ y q : Int, zeroResult.total y = 0 ∧ zeroResult.weighted y = 0 ∧
       zeroResult.totalQ q y = 0 ∧ zeroResult.weightedQ q y = 0)) :=
  ⟨rfl, C3_zero_amount [2025] rowZ rfl⟩

/-! ## CONCEPTION bracket selection (claim C4) -/

theorem spreadConception_small (amt : ℚ) (s : Date) (hs : validMonth s)
    (h1 : amt < CONCEPTION_THRESHOLD_LOW) :
    spreadConception amt s = specFragments (monthIndex s) 3 (amt / 3) := by
  unfold spreadConception
  rw [if_pos h1]
  exact (conceptionPhase_char s hs 3 _).1

theorem spreadConception_medium (amt : ℚ) (s : Date) (hs : validMonth s)
    (h1 : ¬ amt < CONCEPTION_THRESHOLD_LOW)
    (h2 : amt ≤ CONCEPTION_THRESHOLD_HIGH) :
    spreadConception amt s =
      specFragments (monthIndex s) 6 (amt * 0.60 / 6) ++
        specFragments (monthIndex s + 12) 6 (amt * 0.40 / 6) := by
  unfold spreadConception
  rw [if_neg h1, if_pos h2]
  dsimp only
  obtain ⟨c1, c2, _⟩ := conceptionPhase_char s hs 6 (amt * 0.60 / 6)
  obtain ⟨d1, _, _⟩ := conceptionPhase_char
    (addMonths (conceptionPhase s 6 (amt * 0.60 / 6)).2 6)
    (validMonth_addMonths _ _) 6 (amt * 0.40 / 6)
  rw [c1, d1, monthIndex_addMonths, c2]
  have h6 : monthIndex s + ((6 : Nat) : Int) + 6 = monthIndex s + 12 := by
    omega
  rw [h6]

theorem spreadConception_large (amt : ℚ) (s : Date) (hs : validMonth s)
    (h1 : ¬ amt < CONCEPTION_THRESHOLD_LOW)
    (h2 : ¬ amt ≤ CONCEPTION_THRESHOLD_HIGH) :
    spreadConception amt s =
      specFragments (monthIndex s) 12 (amt * 0.40 / 12) ++
        specFragments (monthIndex s + 18) 12 (amt * 0.60 / 12) := by
  unfold spreadConception
  rw [if_neg h1, if_neg h2]
  dsimp only
  obtain ⟨c1, c2, _⟩ := conceptionPhase_char s hs 12 (amt * 0.40 / 12)
  obtain ⟨d1, _, _⟩ := conceptionPhase_char
    (addMonths (conceptionPhase s 12 (amt * 0.40 / 12)).2 6)
    (validMonth_addMonths _ _) 12 (amt * 0.60 / 12)
  rw [c1, d1, monthIndex_addMonths, c2]
  have h12 : monthIndex s + ((12 : Nat) : Int) + 6 = monthIndex s + 18 := by
    omega
  rw [h12]

/-- Claim C4 (CONCEPTION threshold boundaries, inclusive on the high
end): amounts of exactly 15000 and exactly 30000 both use the medium
bracket (six fragments of `0.60*amount/6` at the effective start, a
6-month gap, six fragments of `0.40*amount/6`); every amount below
15000 yields three fragments of `amount/3`; every amount above 30000
yields twelve fragments of `0.40*amount/12`, a 6-month gap and twelve
fragments of `0.60*amount/12`. -/
theorem C4_conception_thresholds (s : Date) (hs : validMonth s) (a b : ℚ)
    (ha : a < 15000) (hb : 30000 < b) :
    (spreadConception 15000 s =
      specFragments (monthIndex s) 6 (0.60 * 15000 / 6) ++
        specFragments (monthIndex s + 12) 6 (0.40 * 15000 / 6)) ∧
    (spreadConception 30000 s =
      specFragments (monthIndex s) 6 (0.60 * 30000 / 6) ++
        specFragments (monthIndex s + 12) 6 (0.40 * 30000 / 6)) ∧
    (spreadConception a s = specFragments (monthIndex s) 3 (a / 3)) ∧
    (spreadConception b s =
      specFragments (monthIndex s) 12 (0.40 * b / 12) ++
        specFragments (monthIndex s + 18) 12 (0.60 * b / 12)) := by
  refine ⟨?_, ?_, ?_, ?_⟩
  · rw [spreadConception_medium 15000 s hs
      (by norm_num [CONCEPTION_THRESHOLD_LOW])
      (by norm_num [CONCEPTION_THRESHOLD_HIGH])]
    congr 1
    · congr 1
      ring
    · congr 1
      ring
  · rw [spreadConception_medium 30000 s hs
      (by norm_num [CONCEPTION_THRESHOLD_LOW])
      (by norm_num [CONCEPTION_THRESHOLD_HIGH])]
    congr 1
    · congr 1
      ring
    · congr 1
      ring
  · exact spreadConception_small a s hs
      (by simp only [CONCEPTION_THRESHOLD_LOW]; exact ha)
  · rw [spreadConception_large b s hs
      (by simp only [CONCEPTION_THRESHOLD_LOW]; linarith)
      (by simp only [CONCEPTION_THRESHOLD_HIGH]; linarith)]
    congr 1
    · congr 1
      ring
    · congr 1
      ring

/-- Witness for C4 at a concrete input. -/
theorem C4_witness :
    (validMonth ⟨2025, 1, 15⟩ ∧ (1000 : ℚ) < 15000 ∧
      (30000 : ℚ) < 40000) ∧
    ((spreadConception 15000 ⟨2025, 1, 15⟩ =
      specFragments (monthIndex ⟨2025, 1, 15⟩) 6 (0.60 * 15000 / 6) ++
        specFragments (monthIndex ⟨2025, 1, 15⟩ + 12) 6 (0.40 * 15000 / 6)) ∧
    (spreadConception 30000 ⟨2025, 1, 15⟩ =
      specFragments (monthIndex ⟨2025, 1, 15⟩) 6 (0.60 * 30000 / 6) ++
        specFragments (monthIndex ⟨2025, 1, 15⟩ + 12) 6 (0.40 * 30000 / 6)) ∧
    (spreadConception 1000 ⟨2025, 1, 15⟩ =
      specFragments (monthIndex ⟨2025, 1, 15⟩) 3 (1000 / 3)) ∧
    (spreadConception 40000 ⟨2025, 1, 15⟩ =
      specFragments (monthIndex ⟨2025, 1, 15⟩) 12 (0.40 * 40000 / 12) ++
        specFragments (monthIndex ⟨2025, 1, 15⟩ + 18) 12 (0.60 * 40000 / 12))) :=
  ⟨⟨by decide, by norm_num, by norm_num⟩,
    C4_conception_thresholds ⟨2025, 1, 15⟩ (by decide) 1000 40000
      (by norm_num) (by norm_num)⟩

/-! ## Concrete runs of `calculate_revenue` (claims C7 and C8) -/

/-- Reduction of `calculate_revenue` for a duration-based business unit
whose resolver produced both effective dates in order (no fallback). -/
theorem calculateRevenue_duration (years : List Int) (row : Row)
    (h0 : row.amount ≠ 0) (es st : Date) (applied : Bool) (nm : String)
    (hr : computeEffectiveDates row = ⟨some es, some st, applied, nm⟩)
    (hbu1 : row.final_bu ≠ "CONCEPTION")
    (hnlt : ¬ dateLt st es) :
    calculateRevenue years row =
      foldAllocations years (listMin years) (listMax years)
        row.probability_factor
        { zeroResult with
          rule_applied := applied
          rule_name := nm
          effective_start := some es
          effective_stop := some st }
        (if row.final_bu = "MAINTENANCE" then
          spreadMaintenance row.amount es st
        else spreadTravaux row.amount es st) := by
  unfold calculateRevenue
  rw [if_neg h0]
  dsimp only
  rw [hr]
  dsimp only
  simp only [allocateResolved]
  rw [if_neg hbu1]
  simp only [effectiveStopWithFallback, fallbackApplied]
  rw [if_neg hnlt]
  rw [if_neg (show ¬ ((decide (dateLt st es) && applied) = true) by
    rw [decide_eq_false hnlt]
    simp)]

/-- Scenario B input (claim C7): MAINTENANCE, amount 12000, start
missing, stop `2025-12-31`, proposal date `2025-01-01`. -/
def rowB : Row :=
  ⟨12000, 1, "MAINTENANCE", none, some ⟨2025, 12, 31⟩, some ⟨2025, 1, 1⟩⟩

/-- Claim C7 (Scenario B): for the row above, the only-start-missing
MAINTENANCE rule fires with `effective_start = 2025-01-31`
(`stop - 11 months`) and `effective_stop = 2025-12-31`; the even
spread emits twelve monthly fragments of 1000 each, and
`total[2025] = 12000` for every tracked window containing 2025. -/
theorem C7_scenario_B (ys : List Int) (hy : (2025 : Int) ∈ ys) :
    (computeEffectiveDates rowB).rule_applied = true ∧
    (computeEffectiveDates rowB).effective_start = some ⟨2025, 1, 31⟩ ∧
    (computeEffectiveDates rowB).effective_stop = some ⟨2025, 12, 31⟩ ∧
    spreadMaintenance 12000 ⟨2025, 1, 31⟩ ⟨2025, 12, 31⟩ =
      [⟨2025, 1, 1000⟩, ⟨2025, 2, 1000⟩, ⟨2025, 3, 1000⟩, ⟨2025, 4, 1000⟩,
       ⟨2025, 5, 1000⟩, ⟨2025, 6, 1000⟩, ⟨2025, 7, 1000⟩, ⟨2025, 8, 1000⟩,
       ⟨2025, 9, 1000⟩, ⟨2025, 10, 1000⟩, ⟨2025, 11, 1000⟩,
       ⟨2025, 12, 1000⟩] ∧
    (calculateRevenue (mkYearsToTrack ys) rowB).total 2025 = 12000 := by
  have hr : computeEffectiveDates rowB =
      ⟨some ⟨2025, 1, 31⟩, some ⟨2025, 12, 31⟩, true,
        "rule1_start_missing_maintenance"⟩ := by decide
  have hspread : spreadMaintenance 12000 ⟨2025, 1, 31⟩ ⟨2025, 12, 31⟩ =
      [⟨2025, 1, 1000⟩, ⟨2025, 2, 1000⟩, ⟨2025, 3, 1000⟩, ⟨2025, 4, 1000⟩,
       ⟨2025, 5, 1000⟩, ⟨2025, 6, 1000⟩, ⟨2025, 7, 1000⟩, ⟨2025, 8, 1000⟩,
       ⟨2025, 9, 1000⟩, ⟨2025, 10, 1000⟩, ⟨2025, 11, 1000⟩,
       ⟨2025, 12, 1000⟩] := by
    have hmonths : iterCalendarMonthStarts ⟨2025, 1, 31⟩ ⟨2025, 12, 31⟩ =
        [⟨2025, 1, 1⟩, ⟨2025, 2, 1⟩, ⟨2025, 3, 1⟩, ⟨2025, 4, 1⟩,
         ⟨2025, 5, 1⟩, ⟨2025, 6, 1⟩, ⟨2025, 7, 1⟩, ⟨2025, 8, 1⟩,
         ⟨2025, 9, 1⟩, ⟨2025, 10, 1⟩, ⟨2025, 11, 1⟩, ⟨2025, 12, 1⟩] := by
      decide
    unfold spreadMaintenance
    dsimp only
    rw [hmonths, if_neg (List.cons_ne_nil _ _)]
    norm_num
  refine ⟨by rw [hr], by rw [hr], by rw [hr], hspread, ?_⟩
  have hmem : (2025 : Int) ∈ mkYearsToTrack ys :=
    (List.perm_insertionSort _ ys).mem_iff.mpr hy
  rw [calculateRevenue_duration (mkYearsToTrack ys) rowB
    (by norm_num [rowB]) ⟨2025, 1, 31⟩ ⟨2025, 12, 31⟩ true
    "rule1_start_missing_maintenance" hr (by decide) (by decide)]
  rw [if_pos (show rowB.final_bu = "MAINTENANCE" from rfl),
    show rowB.amount = 12000 from rfl, hspread]
  rw [(foldAllocations_single (mkYearsToTrack ys) rowB.probability_factor
    2025 hmem _
    [⟨2025, 1, 1000⟩, ⟨2025, 2, 1000⟩, ⟨2025, 3, 1000⟩, ⟨2025, 4, 1000⟩,
     ⟨2025, 5, 1000⟩, ⟨2025, 6, 1000⟩, ⟨2025, 7, 1000⟩, ⟨2025, 8, 1000⟩,
     ⟨2025, 9, 1000⟩, ⟨2025, 10, 1000⟩, ⟨2025, 11, 1000⟩, ⟨2025, 12, 1000⟩]
    (by decide)).1]
  show (0 : ℚ) + _ = 12000
  norm_num

/-- Witness for C7 at a concrete tracked window. -/
theorem C7_witness :
    ((2025 : Int) ∈ ([2025, 2026, 2027, 2028] : List Int)) ∧
    ((computeEffectiveDates rowB).rule_applied = true ∧
     (computeEffectiveDates rowB).effective_start = some ⟨2025, 1, 31⟩ ∧
     (computeEffectiveDates rowB).effective_stop = some ⟨2025, 12, 31⟩ ∧
     spreadMaintenance 12000 ⟨2025, 1, 31⟩ ⟨2025, 12, 31⟩ =
       [⟨2025, 1, 1000⟩, ⟨2025, 2, 1000⟩, ⟨2025, 3, 1000⟩, ⟨2025, 4, 1000⟩,
        ⟨2025, 5, 1000⟩, ⟨2025, 6, 1000⟩, ⟨2025, 7, 1000⟩, ⟨2025, 8, 1000⟩,
        ⟨2025, 9, 1000⟩, ⟨2025, 10, 1000⟩, ⟨2025, 11, 1000⟩,
        ⟨2025, 12, 1000⟩] ∧
     (calculateRevenue (mkYearsToTrack [2025, 2026, 2027, 2028])
        rowB).total 2025 = 12000) :=
  ⟨by decide, C7_scenario_B [2025, 2026, 2027, 2028] (by decide)⟩

/-! ## Month-boundary enumeration (claim C8) -/

theorem length_iter_formula (start stop : Date) (hs : validMonth start)
    (he : validMonth stop) (hle : dateLe start stop) :
    ((iterCalendarMonthStarts start stop).length : Int) =
      12 * (stop.year - start.year) + (stop.month - start.month) + 1 := by
  have hmi := monthIndex_le_of_dateLe start stop hs he hle
  rw [length_iterCalendarMonthStarts start stop hmi]
  unfold monthIndex
  ring

theorem iter_pairs (start stop : Date) (hs : validMonth start)
    (he : validMonth stop) (hle : dateLe start stop) :
    (iterCalendarMonthStarts start stop).map (fun d => (d.year, d.month)) =
      (List.range (12 * (stop.year - start.year) +
        (stop.month - start.month) + 1).toNat).map
        (fun i : Nat => ((monthIndex start + (i : Int)) / 12,
          (monthIndex start + (i : Int)) % 12 + 1)) := by
  have hmi := monthIndex_le_of_dateLe start stop hs he hle
  rw [iterCalendarMonthStarts_eq start stop hmi, monthRangeAux_eq_map,
    List.map_map]
  have hn : (monthIndex stop - monthIndex start + 1).toNat =
      (12 * (stop.year - start.year) + (stop.month - start.month) + 1).toNat := by
    unfold monthIndex
    congr 1
    ring
  rw [hn]
  refine List.map_congr_left fun i _ => ?_
  simp only [Function.comp_apply, dateOfMonthIndex]

theorem spreadMaintenance_pairs (amount : ℚ) (start stop : Date)
    (hmi : monthIndex start ≤ monthIndex stop) :
    (spreadMaintenance amount start stop).map (fun a => (a.year, a.month)) =
      (iterCalendarMonthStarts start stop).map (fun d => (d.year, d.month)) := by
  unfold spreadMaintenance
  dsimp only
  rw [if_neg (iterCalendarMonthStarts_ne_nil start stop hmi), List.map_map]
  rfl

theorem spreadTravaux_pairs (amount : ℚ) (start stop : Date)
    (hs : validMonth start) (hmi : monthIndex start ≤ monthIndex stop) :
    (spreadTravaux amount start stop).map (fun a => (a.year, a.month)) =
      (iterCalendarMonthStarts start stop).map (fun d => (d.year, d.month)) := by
  unfold spreadTravaux
  split
  · rename_i hsame
    have hab : monthIndex stop - monthIndex start + 1 = 1 := by
      obtain ⟨hy, hm⟩ := hsame
      unfold monthIndex
      omega
    have hiter : iterCalendarMonthStarts start stop =
        [dateOfMonthIndex (monthIndex start) 1] := by
      rw [iterCalendarMonthStarts_eq start stop hmi, hab]
      rfl
    rw [hiter]
    simp only [List.map_cons, List.map_nil]
    unfold dateOfMonthIndex
    dsimp only
    rw [year_of_monthIndex start hs, month_of_monthIndex start hs]
  · exact spreadMaintenance_pairs amount start stop hmi

/-- Scenario E input (claim C8): TRAVAUX, amount 5500, start
`2025-10-20`, stop `2025-12-19`, probability factor `0.5`. -/
def rowE : Row :=
  ⟨5500, 1/2, "TRAVAUX", some ⟨2025, 10, 20⟩, some ⟨2025, 12, 19⟩,
    some ⟨2025, 10, 31⟩⟩

/-- Claim C8 (month-boundary enumeration): for `start ≤ stop` (with
calendar-valid months), the MAINTENANCE and TRAVAUX even spreads emit
exactly one fragment per calendar month from `start`'s month through
`stop`'s month inclusive - the fragment (year, month) pairs enumerate
the `12*(stop_year - start_year) + stop_month - start_month + 1`
consecutive calendar months starting at `start`'s month, independent of
the day-of-month; and Scenario E (TRAVAUX, 5500, `2025-10-20` to
`2025-12-19`, factor 0.5) allocates over exactly 3 months with
`total[2025] = 5500` and `weighted[2025] = 2750`. -/
theorem C8_month_boundary (amt : ℚ) (start stop : Date)
    (hs : validMonth start) (he : validMonth stop) (hle : dateLe start stop)
    (ys : List Int) (hy : (2025 : Int) ∈ ys) :
    (((iterCalendarMonthStarts start stop).length : Int) =
      12 * (stop.year - start.year) + (stop.month - start.month) + 1) ∧
    ((iterCalendarMonthStarts start stop).map (fun d => (d.year, d.month)) =
      (List.range (12 * (stop.year - start.year) +
        (stop.month - start.month) + 1).toNat).map
        (fun i : Nat => ((monthIndex start + (i : Int)) / 12,
          (monthIndex start + (i : Int)) % 12 + 1))) ∧
    ((spreadMaintenance amt start stop).map (fun a => (a.year, a.month)) =
      (iterCalendarMonthStarts start stop).map (fun d => (d.year, d.month))) ∧
    ((spreadTravaux amt start stop).map (fun a => (a.year, a.month)) =
      (iterCalendarMonthStarts start stop).map (fun d => (d.year, d.month))) ∧
    ((spreadTravaux 5500 ⟨2025, 10, 20⟩ ⟨2025, 12, 19⟩).length = 3 ∧
     (calculateRevenue (mkYearsToTrack ys) rowE).total 2025 = 5500 ∧
     (calculateRevenue (mkYearsToTrack ys) rowE).weighted 2025 = 2750) := by
  have hmi := monthIndex_le_of_dateLe start stop hs he hle
  have hsp : spreadTravaux 5500 ⟨2025, 10, 20⟩ ⟨2025, 12, 19⟩ =
      [⟨2025, 10, 5500 / 3⟩, ⟨2025, 11, 5500 / 3⟩, ⟨2025, 12, 5500 / 3⟩] := by
    have hmonths : iterCalendarMonthStarts ⟨2025, 10, 20⟩ ⟨2025, 12, 19⟩ =
        [⟨2025, 10, 1⟩, ⟨2025, 11, 1⟩, ⟨2025, 12, 1⟩] := by decide
    unfold spreadTravaux
    rw [if_neg (by decide)]
    dsimp only
    rw [hmonths, if_neg (List.cons_ne_nil _ _)]
    norm_num
  have hmem : (2025 : Int) ∈ mkYearsToTrack ys :=
    (List.perm_insertionSort _ ys).mem_iff.mpr hy
  have hrE : computeEffectiveDates rowE =
      ⟨some ⟨2025, 10, 20⟩, some ⟨2025, 12, 19⟩, false, "none"⟩ := by decide
  have hcalc := calculateRevenue_duration (mkYearsToTrack ys) rowE
    (by norm_num [rowE]) ⟨2025, 10, 20⟩ ⟨2025, 12, 19⟩ false "none" hrE
    (by decide) (by decide)
  rw [if_neg (show ¬ rowE.final_bu = "MAINTENANCE" by decide),
    show rowE.amount = 5500 from rfl, hsp] at hcalc
  obtain ⟨ht, hw⟩ := foldAllocations_single (mkYearsToTrack ys)
    rowE.probability_factor 2025 hmem
    { zeroResult with
      rule_applied := false
      rule_name := "none"
      effective_start := some ⟨2025, 10, 20⟩
      effective_stop := some ⟨2025, 12, 19⟩ }
    [⟨2025, 10, 5500 / 3⟩, ⟨2025, 11, 5500 / 3⟩, ⟨2025, 12, 5500 / 3⟩]
    (by decide)
  refine ⟨length_iter_formula start stop hs he hle,
    iter_pairs start stop hs he hle,
    spreadMaintenance_pairs amt start stop hmi,
    spreadTravaux_pairs amt start stop hs hmi,
    by rw [hsp]; rfl, ?_, ?_⟩
  · rw [hcalc, ht]
    show (0 : ℚ) + _ = 5500
    norm_num
  · rw [hcalc, hw]
    show (0 : ℚ) + _ * rowE.probability_factor = 2750
    norm_num [rowE]

/-- Witness for C8 at a concrete input. -/
theorem C8_witness :
    (validMonth ⟨2025, 10, 20⟩ ∧ validMonth ⟨2025, 12, 19⟩ ∧
      dateLe ⟨2025, 10, 20⟩ ⟨2025, 12, 19⟩ ∧
      (2025 : Int) ∈ ([2025] : List Int)) ∧
    ((((iterCalendarMonthStarts ⟨2025, 10, 20⟩ ⟨2025, 12, 19⟩).length : Int) =
      12 * ((2025 : Int) - 2025) + ((12 : Int) - 10) + 1) ∧
    ((iterCalendarMonthStarts ⟨2025, 10, 20⟩ ⟨2025, 12, 19⟩).map
        (fun d => (d.year, d.month)) =
      (List.range (12 * ((2025 : Int) - 2025) + ((12 : Int) - 10) + 1).toNat).map
        (fun i : Nat => ((monthIndex ⟨2025, 10, 20⟩ + (i : Int)) / 12,
          (monthIndex ⟨2025, 10, 20⟩ + (i : Int)) % 12 + 1))) ∧
    ((spreadMaintenance 7 ⟨2025, 10, 20⟩ ⟨2025, 12, 19⟩).map
        (fun a => (a.year, a.month)) =
      (iterCalendarMonthStarts ⟨2025, 10, 20⟩ ⟨2025, 12, 19⟩).map
        (fun d => (d.year, d.month))) ∧
    ((spreadTravaux 7 ⟨2025, 10, 20⟩ ⟨2025, 12, 19⟩).map
        (fun a => (a.year, a.month)) =
      (iterCalendarMonthStarts ⟨2025, 10, 20⟩ ⟨2025, 12, 19⟩).map
        (fun d => (d.year, d.month))) ∧
    ((spreadTravaux 5500 ⟨2025, 10, 20⟩ ⟨2025, 12, 19⟩).length = 3 ∧
     (calculateRevenue (mkYearsToTrack [2025]) rowE).total 2025 = 5500 ∧
     (calculateRevenue (mkYearsToTrack [2025]) rowE).weighted 2025 = 2750)) :=
  ⟨⟨by decide, by decide, by decide, by decide⟩,
    C8_month_boundary 7 ⟨2025, 10, 20⟩ ⟨2025, 12, 19⟩ (by decide) (by decide)
      (by decide) [2025] (by decide)⟩

/-! ## Default-bucket equivalence (claim C9) -/

theorem rule1_default_eq (bu : String) (d e : Date)
    (h1 : bu ≠ "MAINTENANCE") (h2 : bu ≠ "TRAVAUX") (h3 : bu ≠ "CONCEPTION") :
    (rule1 bu d e).effective_start = (rule1 "TRAVAUX" d e).effective_start ∧
    (rule1 bu d e).effective_stop = (rule1 "TRAVAUX" d e).effective_stop ∧
    (rule1 bu d e).rule_applied = (rule1 "TRAVAUX" d e).rule_applied := by
  simp [rule1, h1, h2, h3]

theorem rule2_default_eq (bu : String) (s : Date)
    (h1 : bu ≠ "MAINTENANCE") (h2 : bu ≠ "TRAVAUX") (h3 : bu ≠ "CONCEPTION") :
    (rule2 bu s).effective_start = (rule2 "TRAVAUX" s).effective_start ∧
    (rule2 bu s).effective_stop = (rule2 "TRAVAUX" s).effective_stop ∧
    (rule2 bu s).rule_applied = (rule2 "TRAVAUX" s).rule_applied := by
  simp [rule2, h1, h2, h3]

theorem rule3_default_eq (bu : String) (d : Date)
    (h1 : bu ≠ "MAINTENANCE") (h2 : bu ≠ "TRAVAUX") (h3 : bu ≠ "CONCEPTION") :
    (rule3 bu d).effective_start = (rule3 "TRAVAUX" d).effective_start ∧
    (rule3 bu d).effective_stop = (rule3 "TRAVAUX" d).effective_stop ∧
    (rule3 bu d).rule_applied = (rule3 "TRAVAUX" d).rule_applied := by
  simp [rule3, h1, h2, h3]

/-- For a business unit outside the three named ones, the resolver
produces the same effective dates and `rule_applied` flag as for
TRAVAUX (only the diagnostic `rule_name` differs). -/
theorem resolver_default_eq (row : Row)
    (h1 : row.final_bu ≠ "MAINTENANCE") (h2 : row.final_bu ≠ "TRAVAUX")
    (h3 : row.final_bu ≠ "CONCEPTION") :
    (computeEffectiveDates row).effective_start =
      (computeEffectiveDates { row with final_bu := "TRAVAUX" }).effective_start ∧
    (computeEffectiveDates row).effective_stop =
      (computeEffectiveDates { row with final_bu := "TRAVAUX" }).effective_stop ∧
    (computeEffectiveDates row).rule_applied =
      (computeEffectiveDates { row with final_bu := "TRAVAUX" }).rule_applied := by
  unfold computeEffectiveDates
  dsimp only
  rcases hps : row.projet_start with _ | s <;>
    rcases hpe : row.projet_stop with _ | e <;> dsimp only
  · rcases hpd : row.date with _ | d
    · exact ⟨rfl, rfl, rfl⟩
    · exact rule3_default_eq row.final_bu d h1 h2 h3
  · rcases hpd : row.date with _ | d
    · exact ⟨rfl, rfl, rfl⟩
    · exact rule1_default_eq row.final_bu d e h1 h2 h3
  · rcases hpd : row.date with _ | d
    · exact ⟨rfl, rfl, rfl⟩
    · exact rule2_default_eq row.final_bu s h1 h2 h3
  · by_cases hse : dateLe s e
    · simp [hse]
    · simp only [hse, if_false]
      rcases hpd : row.date with _ | d
      · exact ⟨rfl, rfl, rfl⟩
      · exact rule3_default_eq row.final_bu d h1 h2 h3

theorem foldl_financial_congr (years : List Int) (p : ℚ)
    (allocs : List RevenueAllocation) (b1 b2 : AllocationResult)
    (h1 : b1.total = b2.total) (h2 : b1.weighted = b2.weighted)
    (h3 : b1.totalQ = b2.totalQ) (h4 : b1.weightedQ = b2.weightedQ) :
    ((allocs.foldl (addAllocation years p) b1).total =
      (allocs.foldl (addAllocation years p) b2).total) ∧
    ((allocs.foldl (addAllocation years p) b1).weighted =
      (allocs.foldl (addAllocation years p) b2).weighted) ∧
    ((allocs.foldl (addAllocation years p) b1).totalQ =
      (allocs.foldl (addAllocation years p) b2).totalQ) ∧
    ((allocs.foldl (addAllocation years p) b1).weightedQ =
      (allocs.foldl (addAllocation years p) b2).weightedQ) := by
  induction allocs generalizing b1 b2 with
  | nil => exact ⟨h1, h2, h3, h4⟩
  | cons a as ih =>
    rw [List.foldl_cons, List.foldl_cons]
    refine ih _ _ ?_ ?_ ?_ ?_
    · by_cases hm : a.year ∈ years
      · funext y
        rw [addAllocation_total_apply years p b1 a y hm,
          addAllocation_total_apply years p b2 a y hm, h1]
      · rw [addAllocation_not_mem years p b1 a hm,
          addAllocation_not_mem years p b2 a hm, h1]
    · by_cases hm : a.year ∈ years
      · funext y
        rw [addAllocation_weighted_apply years p b1 a y hm,
          addAllocation_weighted_apply years p b2 a y hm, h2]
      · rw [addAllocation_not_mem years p b1 a hm,
          addAllocation_not_mem years p b2 a hm, h2]
    · by_cases hm : a.year ∈ years
      · funext qq y
        rw [addAllocation_totalQ_apply years p b1 a qq y hm,
          addAllocation_totalQ_apply years p b2 a qq y hm, h3]
      · rw [addAllocation_not_mem years p b1 a hm,
          addAllocation_not_mem years p b2 a hm, h3]
    · by_cases hm : a.year ∈ years
      · funext qq y
        rw [addAllocation_weightedQ_apply years p b1 a qq y hm,
          addAllocation_weightedQ_apply years p b2 a qq y hm, h4]
      · rw [addAllocation_not_mem years p b1 a hm,
          addAllocation_not_mem years p b2 a hm, h4]

theorem foldAllocations_financial_congr (years : List Int) (f l : Int)
    (p : ℚ) (b1 b2 : AllocationResult) (allocs : List RevenueAllocation)
    (h1 : b1.total = b2.total) (h2 : b1.weighted = b2.weighted)
    (h3 : b1.totalQ = b2.totalQ) (h4 : b1.weightedQ = b2.weightedQ) :
    ((foldAllocations years f l p b1 allocs).total =
      (foldAllocations years f l p b2 allocs).total) ∧
    ((foldAllocations years f l p b1 allocs).weighted =
      (foldAllocations years f l p b2 allocs).weighted) ∧
    ((foldAllocations years f l p b1 allocs).totalQ =
      (foldAllocations years f l p b2 allocs).totalQ) ∧
    ((foldAllocations years f l p b1 allocs).weightedQ =
      (foldAllocations years f l p b2 allocs).weightedQ) := by
  unfold foldAllocations
  exact foldl_financial_congr years p _ b1 b2 h1 h2 h3 h4

/-- Claim C9 (default-bucket equivalence): for every row whose business
unit is outside {CONCEPTION, MAINTENANCE, TRAVAUX} (AUTRE or any other
string), `calculate_revenue` produces exactly the same financial
columns (all yearly and quarterly total and weighted fields) as the
identical row with business unit TRAVAUX; in the embedding the function
is total, so no exception can be raised. -/
theorem C9_default_bucket (ys : List Int) (row : Row)
    (h1 : row.final_bu ≠ "CONCEPTION") (h2 : row.final_bu ≠ "MAINTENANCE")
    (h3 : row.final_bu ≠ "TRAVAUX") :
    ((calculateRevenue (mkYearsToTrack ys) row).total =
      (calculateRevenue (mkYearsToTrack ys)
        { row with final_bu := "TRAVAUX" }).total) ∧
    ((calculateRevenue (mkYearsToTrack ys) row).weighted =
      (calculateRevenue (mkYearsToTrack ys)
        { row with final_bu := "TRAVAUX" }).weighted) ∧
    ((calculateRevenue (mkYearsToTrack ys) row).totalQ =
      (calculateRevenue (mkYearsToTrack ys)
        { row with final_bu := "TRAVAUX" }).totalQ) ∧
    ((calculateRevenue (mkYearsToTrack ys) row).weightedQ =
      (calculateRevenue (mkYearsToTrack ys)
        { row with final_bu := "TRAVAUX" }).weightedQ) := by
  obtain ⟨hseq, hpeq, haeq⟩ := resolver_default_eq row h2 h3 h1
  unfold calculateRevenue
  dsimp only
  by_cases h0 : row.amount = 0
  · rw [if_pos h0, if_pos h0]
    exact ⟨rfl, rfl, rfl, rfl⟩
  · rw [if_neg h0, if_neg h0]
    rw [← hseq]
    rcases hes : (computeEffectiveDates row).effective_start with _ | es
    · simp [allocateResolved]
    · simp only [allocateResolved]
      rw [if_neg h1,
        if_neg (show ¬ ("TRAVAUX" : String) = "CONCEPTION" by decide),
        if_neg h2,
        if_neg (show ¬ ("TRAVAUX" : String) = "MAINTENANCE" by decide),
        ← hpeq]
      apply foldAllocations_financial_congr
      · split <;> split <;> rfl
      · split <;> split <;> rfl
      · split <;> split <;> rfl
      · split <;> split <;> rfl

/-- Concrete input for the witness of C9: an AUTRE row. -/
def rowA : Row :=
  ⟨8000, 1, "AUTRE", some ⟨2025, 1, 1⟩, some ⟨2025, 6, 30⟩, none⟩

/-- Witness for C9 at a concrete input. -/
theorem C9_witness :
    (rowA.final_bu ≠ "CONCEPTION" ∧ rowA.final_bu ≠ "MAINTENANCE" ∧
      rowA.final_bu ≠ "TRAVAUX") ∧
    (((calculateRevenue (mkYearsToTrack [2025, 2026]) rowA).total =
      (calculateRevenue (mkYearsToTrack [2025, 2026])
        { rowA with final_bu := "TRAVAUX" }).total) ∧
    ((calculateRevenue (mkYearsToTrack [2025, 2026]) rowA).weighted =
      (calculateRevenue (mkYearsToTrack [2025, 2026])
        { rowA with final_bu := "TRAVAUX" }).weighted) ∧
    ((calculateRevenue (mkYearsToTrack [2025, 2026]) rowA).totalQ =
      (calculateRevenue (mkYearsToTrack [2025, 2026])
        { rowA with final_bu := "TRAVAUX" }).totalQ) ∧
    ((calculateRevenue (mkYearsToTrack [2025, 2026]) rowA).weightedQ =
      (calculateRevenue (mkYearsToTrack [2025, 2026])
        { rowA with final_bu := "TRAVAUX" }).weightedQ)) :=
  ⟨⟨by decide, by decide, by decide⟩,
    C9_default_bucket [2025, 2026] rowA (by decide) (by decide) (by decide)⟩

end RevenueEngine
